import Mathlib

/-!
Verification development for the pcs configuration-validation core:
the corosync configuration validators (`pcs/lib/corosync/config_validators.py`)
and the CIB constraint builder (`pcs/lib/cib/constraint/constraint.py`).

Python mappings (`dict`) are embedded as insertion-ordered association
lists, matching CPython dict iteration order.  Name resolution
(`socket.getaddrinfo`) is abstracted as an explicit oracle parameter
`resolves : String → Bool`; the per-call address-type memoisation cache is
embedded faithfully and proved transparent.  String inspection is done on
`String.data` (the character list) so terms evaluate inside the kernel.
-/

/-- Association-list lookup, first binding wins (CPython dict lookup). -/
def alookup (k : String) : List (String × α) → Option α
  | [] => none
  | (a, v) :: t => if a = k then some v else alookup k t

/-- Keys of an association list in insertion order (Python `dict.keys()`). -/
def keyList (m : List (String × α)) : List String :=
  m.map Prod.fst

/-- Increment a string-keyed counter, appending a fresh key at the end
(Python `defaultdict(int)` update order). -/
def bump (k : String) : List (String × Nat) → List (String × Nat)
  | [] => [(k, 1)]
  | (a, n) :: t => if a = k then (a, n + 1) :: t else (a, n) :: bump k t

/-- Insert a key/value only if the key is absent, appending at the end
(the `if addr not in all_addrs_type` memoisation step of `create`). -/
def memoInsert (k : String) (v : α) (m : List (String × α)) : List (String × α) :=
  match alookup k m with
  | some _ => m
  | none => m ++ [(k, v)]

/-- Update the value of a key in place, appending a fresh key at the end
(Python `d[k] = v`). -/
def dictInsert (k : String) (v : α) : List (String × α) → List (String × α)
  | [] => [(k, v)]
  | (a, w) :: t => if a = k then (a, v) :: t else (a, w) :: dictInsert k v t

/-- Pair each list element with its index, starting at `s`
(Python `enumerate(l, s)`). -/
def enumFrom (s : Nat) : List α → List (Nat × α)
  | [] => []
  | a :: t => (s, a) :: enumFrom (s + 1) t

/-- Count of elements mapped by `f` to the key `k`
(the number of times a counter fold bumps `k`). -/
def occurrences (f : α → Option String) (l : List α) (k : String) : Nat :=
  l.countP (fun a => f a == some k)

/-- Counter fold over a list: bump the key extracted from each element
(Python `for a in l: counter[f(a)] += 1`). -/
def countFold (f : α → Option String) (l : List α) : List (String × Nat) :=
  l.foldl (fun m a => match f a with | some k => bump k m | none => m) []

/-- Number of distinct values in a list (Python `len(Counter(l).keys())`). -/
def distinctCount (l : List Nat) : Nat :=
  (l.foldl (fun acc v => if acc.contains v then acc else acc ++ [v]) []).length

/-- Split a character list at a separator (Python `str.split(sep)`). -/
def charSplit (sep : Char) : List Char → List (List Char)
  | [] => [[]]
  | c :: t =>
    let r := charSplit sep t
    if c == sep then [] :: r
    else match r with
      | [] => [[c]]
      | h :: t2 => (c :: h) :: t2

/-- Decimal value of a non-empty digit string, `none` otherwise. -/
def digitsVal (l : List Char) : Option Nat :=
  match l with
  | [] => none
  | _ => l.foldl (fun acc c =>
      match acc with
      | none => none
      | some n => if c.isDigit then some (n * 10 + (c.toNat - 48)) else none)
      (some 0)

/-- Modelled from the spec: Python `int(...)` applied to an option value;
an optional sign followed by decimal digits. -/
def parseInt (s : String) : Option Int :=
  match s.data with
  | '-' :: rest => (digitsVal rest).map (fun n => -(n : Int))
  | '+' :: rest => (digitsVal rest).map (fun n => (n : Int))
  | l => (digitsVal l).map (fun n => (n : Int))

/-- One dotted-quad component of an IPv4 literal. -/
def ipv4PartOk (p : List Char) : Bool :=
  match digitsVal p with
  | some n => n ≤ 255
  | none => false

/-- Modelled from the spec: `validate.is_ipv4_address`, the literal IPv4
syntax check (four dotted decimal components, each at most 255). -/
def is_ipv4_address (s : String) : Bool :=
  let parts := charSplit '.' s.data
  parts.length == 4 && parts.all ipv4PartOk

/-- Hexadecimal digit test (`Char.isHexDigit` is absent in this toolchain). -/
def isHexDigitChar (c : Char) : Bool :=
  c.isDigit || ('a' ≤ c && c ≤ 'f') || ('A' ≤ c && c ≤ 'F')

/-- Modelled from the spec: `validate.is_ipv6_address`, the literal IPv6
syntax check (contains a colon, made of hex digits, colons and dots). -/
def is_ipv6_address (s : String) : Bool :=
  s.data.contains ':' &&
    s.data.all (fun c => isHexDigitChar c || c == ':' || c == '.')

/-- Severity of a report item (spec section 4.1: exactly two severities). -/
inductive Severity where
  | error
  | warning
deriving DecidableEq

/-- Force-override tokens (`pcs.common.report_codes`) used by the
embedded validators. -/
inductive ForceCode where
  | forceNodeAddressesUnresolvable
  | forceQdeviceModel
  | forceOptions
deriving DecidableEq

/-- Classification of one node address by `_get_address_type`. -/
inductive AddrType where
  | ipv4
  | ipv6
  | fqdn
  | unresolvable
deriving DecidableEq

/-- Modelled from the spec: the exported form of one resource set,
`resource_set.export` (ordered resource ids plus set-level attributes). -/
structure ResourceSetExport where
  ids : List String
  options : List (String × String)
deriving DecidableEq

/-- Modelled from the spec: the exported form of a constraint element,
`constraint.export_with_set` (exported resource sets plus attributes). -/
structure ConstraintExport where
  resource_sets : List ResourceSetExport
  attrib : List (String × String)
deriving DecidableEq

/-- Report kinds with their structured payloads (spec sections 4.1 and 7).
Each constructor corresponds to one `pcs.lib.reports` constructor used by
the embedded code. -/
inductive RKind where
  | missingOption (name : String) (ctx : String)
  | invalidOptionValue (name : String) (value : String) (allowed : List String)
  | invalidOptions (names : List String) (allowed : List String) (ctx : String)
      (patterns : List String)
  | dependencyUnmet (dependent : String) (required : String)
  | corosyncBadNodeAddressesCount (actual : Nat) (minCount : Nat) (maxCount : Nat)
      (nodeName : Option String) (nodeId : Nat)
  | nodeAddressesUnresolvable (addrs : List String)
  | corosyncNodeNameDuplication (names : List String)
  | corosyncNodeAddressDuplication (addrs : List String)
  | corosyncNodeAddressCountMismatch (counts : List (String × Nat))
  | corosyncIpVersionMismatchInLinks (links : List Nat)
  | corosyncLinkNumberDuplication (numbers : List String)
  | corosyncTooManyLinks (count : Nat) (maxCount : Nat) (transport : String)
  | corosyncCryptoCipherRequiresCryptoHash
  | invalidUserdefinedOptions (names : List String) (desc : String) (ctx : String)
  | resourceDoesNotExist (id : String)
  | resourceIsInClone (id : String) (cloneId : String)
  | resourceIsInMaster (id : String) (masterId : String)
  | duplicitConstraintsExist (tag : String) (exports : List ConstraintExport)
deriving DecidableEq

/-- A structured diagnostic value (spec section 3: `ReportItem`). -/
structure ReportItem where
  kind : RKind
  severity : Severity
  forceCode : Option ForceCode
deriving DecidableEq

/-- An option map: option name to (normalized) value, insertion ordered. -/
abbrev OptionMap := List (String × String)

/-- A validator of the option-validation framework. -/
abbrev Validator := OptionMap → List ReportItem

/-- Modelled from the spec: `run_collection_of_option_validators` applies
each validator in order to the whole option map and concatenates the
reports. -/
def run_collection_of_option_validators (m : OptionMap) (vs : List Validator) :
    List ReportItem :=
  vs.flatMap (fun v => v m)

/-- Modelled from the spec: the forceability contract; a forceable
violation is emitted as ERROR carrying the force code, or pre-downgraded
to WARNING with no force code when already forced. -/
def downgrade (code : Option ForceCode) (force : Bool) (k : RKind) : ReportItem :=
  if force then ⟨k, .warning, none⟩ else ⟨k, .error, code⟩

/-- Modelled from the spec: `is_required` reports a missing option. -/
def is_required (name ctx : String) : Validator := fun m =>
  match alookup name m with
  | none => [⟨.missingOption name ctx, .error, none⟩]
  | some _ => []

/-- Modelled from the spec: `value_not_empty` rejects a present-but-empty
value; `reportName` is the option name used in the report. -/
def value_not_empty (name desc reportName : String) : Validator := fun m =>
  match alookup name m with
  | none => []
  | some v => if v = "" then [⟨.invalidOptionValue reportName v [desc], .error, none⟩] else []

/-- Modelled from the spec: `value_in` requires the value to be a member of
the allowed set, following the forceability contract. -/
def value_in (name : String) (allowed : List String) (code : Option ForceCode)
    (force : Bool) : Validator := fun m =>
  match alookup name m with
  | none => []
  | some v =>
    if allowed.contains v then []
    else [downgrade code force (.invalidOptionValue name v allowed)]

/-- Modelled from the spec: `value_integer_in_range` parses an integer and
checks it lies within `[lo, hi]`. -/
def value_integer_in_range (name : String) (lo hi : Int) (code : Option ForceCode)
    (force : Bool) : Validator := fun m =>
  match alookup name m with
  | none => []
  | some v =>
    match parseInt v with
    | none => [downgrade code force
        (.invalidOptionValue name v [toString lo ++ ".." ++ toString hi])]
    | some n =>
      if lo ≤ n && n ≤ hi then []
      else [downgrade code force
        (.invalidOptionValue name v [toString lo ++ ".." ++ toString hi])]

/-- Modelled from the spec: `value_nonnegative_integer`. -/
def value_nonnegative_integer (name : String) (code : Option ForceCode)
    (force : Bool) : Validator := fun m =>
  match alookup name m with
  | none => []
  | some v =>
    match parseInt v with
    | none => [downgrade code force (.invalidOptionValue name v ["a nonnegative integer"])]
    | some n =>
      if 0 ≤ n then []
      else [downgrade code force (.invalidOptionValue name v ["a nonnegative integer"])]

/-- Modelled from the spec: `value_positive_integer`. -/
def value_positive_integer (name : String) (code : Option ForceCode)
    (force : Bool) : Validator := fun m =>
  match alookup name m with
  | none => []
  | some v =>
    match parseInt v with
    | none => [downgrade code force (.invalidOptionValue name v ["a positive integer"])]
    | some n =>
      if 1 ≤ n then []
      else [downgrade code force (.invalidOptionValue name v ["a positive integer"])]

/-- Modelled from the spec: `value_port_number` (1..65535). -/
def value_port_number (name : String) (code : Option ForceCode)
    (force : Bool) : Validator :=
  value_integer_in_range name 1 65535 code force

/-- Modelled from the spec: `depends_on_option` reports when the dependent
option is set while the required one is absent. -/
def depends_on_option (dependent required : String) : Validator := fun m =>
  match alookup dependent m with
  | none => []
  | some _ =>
    match alookup required m with
    | none => [⟨.dependencyUnmet dependent required, .error, none⟩]
    | some _ => []

/-- Modelled from the spec: `value_empty_or_valid` accepts an empty value
as the unset sentinel and otherwise delegates to the inner validator. -/
def value_empty_or_valid (name : String) (inner : Validator) : Validator := fun m =>
  match alookup name m with
  | some v => if v = "" then [] else inner m
  | none => inner m

/-- Modelled from the spec: a name pattern of `names_in`; the only pattern
used by the embedded code is the `exec_NAME` prefix rule. -/
def patternMatches (pat name : String) : Bool :=
  pat == "exec_NAME" && "exec_".data.isPrefixOf name.data

/-- Modelled from the spec: `names_in` reports, in one report item, every
given name that is neither allowed nor matched by an allowed pattern,
following the forceability contract. -/
def names_in (allowed : List String) (given : List String) (ctx : String)
    (code : Option ForceCode) (allowExtra : Bool) (patterns : List String) :
    List ReportItem :=
  let invalid := given.filter
    (fun n => !(allowed.contains n) && !(patterns.any (fun p => patternMatches p n)))
  if invalid.isEmpty then []
  else [downgrade code allowExtra (.invalidOptions invalid allowed ctx patterns)]

/-- Modelled from the spec: `constants.TRANSPORTS_KNET`. -/
def TRANSPORTS_KNET : List String := ["knet"]

/-- Modelled from the spec: `constants.TRANSPORTS_UDP`, the single-address
transport family. -/
def TRANSPORTS_UDP : List String := ["udp", "udpu"]

/-- Modelled from the spec: `constants.TRANSPORTS_ALL`, the supported set. -/
def TRANSPORTS_ALL : List String := TRANSPORTS_KNET ++ TRANSPORTS_UDP

/-- Modelled from the spec: `constants.LINKS_KNET_MIN`. -/
def LINKS_KNET_MIN : Nat := 1

/-- Modelled from the spec: `constants.LINKS_KNET_MAX` (the docstring of
`create_link_list_knet` bounds link numbers by 0..7). -/
def LINKS_KNET_MAX : Nat := 8

/-- Modelled from the spec: `constants.LINKS_UDP_MIN`. -/
def LINKS_UDP_MIN : Nat := 1

/-- Modelled from the spec: `constants.LINKS_UDP_MAX`; the udp family can
use only one address/link. -/
def LINKS_UDP_MAX : Nat := 1

/-- One node of the `create` node list: the `name` and `addrs` entries of
the Python node dict (`some ""` is a present-but-empty name). -/
structure Node where
  name : Option String
  addrs : List String
deriving DecidableEq

/-- `_get_address_type`: classify one address; `socket.getaddrinfo` is
abstracted as the oracle `resolves`. -/
def _get_address_type (resolves : String → Bool) (addr : String) : AddrType :=
  if is_ipv4_address addr then .ipv4
  else if is_ipv6_address addr then .ipv6
  else if resolves addr then .fqdn
  else .unresolvable

/-- The node dict restricted to the key the name validators consult. -/
def nodeOptions (n : Node) : OptionMap :=
  match n.name with
  | some s => [("name", s)]
  | none => []

/-- The per-node name validators of `create` (`is_required` plus
`value_not_empty`, with the node index in the report context). -/
def node_name_reports (i : Nat) (n : Node) : List ReportItem :=
  run_collection_of_option_validators (nodeOptions n)
    [is_required "name" ("node " ++ toString i),
     value_not_empty "name" "a non-empty string" ("node " ++ toString i ++ " name")]

/-- The per-node address-count bound check of `create` (family-specific
`[min, max]`, skipped for an unknown transport). -/
def node_addr_count_report (transport : String) (i : Nat) (n : Node) :
    List ReportItem :=
  if (TRANSPORTS_KNET ++ TRANSPORTS_UDP).contains transport then
    let mn := if TRANSPORTS_KNET.contains transport then LINKS_KNET_MIN else LINKS_UDP_MIN
    let mx := if TRANSPORTS_KNET.contains transport then LINKS_KNET_MAX else LINKS_UDP_MAX
    if n.addrs.length < mn || mx < n.addrs.length then
      [⟨.corosyncBadNodeAddressesCount n.addrs.length mn mx n.name i, .error, none⟩]
    else []
  else []

/-- All reports of the per-node loop of `create`, nodes indexed from 1. -/
def node_reports (transport : String) (node_list : List Node) : List ReportItem :=
  (enumFrom 1 node_list).flatMap
    (fun p => node_name_reports p.1 p.2 ++ node_addr_count_report transport p.1 p.2)

/-- The name-count key of one node: a present, non-empty name (missing and
empty names are not counted by `create`). -/
def nodeNameKey (n : Node) : Option String :=
  match n.name with
  | some s => if s = "" then none else some s
  | none => none

/-- `all_names_count` of `create`: occurrences of each usable node name. -/
def all_names_count (node_list : List Node) : List (String × Nat) :=
  countFold nodeNameKey node_list

/-- The node addresses in loop order. -/
def addrs_of (node_list : List Node) : List String :=
  node_list.flatMap Node.addrs

/-- `all_addrs_count` of `create`: occurrences of each address. -/
def all_addrs_count (node_list : List Node) : List (String × Nat) :=
  countFold some (addrs_of node_list)

/-- `all_addrs_type` of `create`: the per-call address-type memoisation
cache, keyed by the distinct addresses in first-seen order. -/
def all_addrs_type (resolves : String → Bool) (node_list : List Node) :
    List (String × AddrType) :=
  (addrs_of node_list).foldl
    (fun m a => memoInsert a (_get_address_type resolves a) m) []

/-- `addr_types_per_node` of `create`; reading the type through the cache
equals classifying directly, since the classification is pure per call
(spec section 9 notes the cache is transparent). -/
def addr_types_per_node (resolves : String → Bool) (node_list : List Node) :
    List (List AddrType) :=
  node_list.map (fun n => n.addrs.map (_get_address_type resolves))

/-- `unresolvable_addresses` of `create`. -/
def unresolvable_addresses (resolves : String → Bool) (node_list : List Node) :
    List String :=
  ((all_addrs_type resolves node_list).filter
    (fun p => p.2 == AddrType.unresolvable)).map Prod.fst

/-- `non_unique_names` of `create`: names counted more than once. -/
def non_unique_names (node_list : List Node) : List String :=
  ((all_names_count node_list).filter (fun p => 1 < p.2)).map Prod.fst

/-- `non_unique_addrs` of `create`: addresses counted more than once. -/
def non_unique_addrs (node_list : List Node) : List String :=
  ((all_addrs_count node_list).filter (fun p => 1 < p.2)).map Prod.fst

/-- `all_names_usable` of `create`: every node has a present non-empty
name and no name occurs twice; name-keyed checks run only when true. -/
def all_names_usable (node_list : List Node) : Bool :=
  node_list.all (fun n => (nodeNameKey n).isSome) && (non_unique_names node_list).isEmpty

/-- `node_addr_count` of `create`: per-name address counts. -/
def node_addr_count (node_list : List Node) : List (String × Nat) :=
  node_list.foldl (fun m n => dictInsert ((n.name).getD "") n.addrs.length m) []

/-- The per-node address-count-mismatch check of `create` (its lines
137-149): guarded by usable names and a non-single-address transport.  The
source computes this report and then discards it instead of appending it
to the returned sequence. -/
def addr_count_mismatch_check (node_list : List Node) (transport : String) :
    Option RKind :=
  if all_names_usable node_list then
    if !(TRANSPORTS_UDP.contains transport) &&
        1 < distinctCount ((node_addr_count node_list).map Prod.snd) then
      some (.corosyncNodeAddressCountMismatch (node_addr_count node_list))
    else none
  else none

/-- `links_ip_mismatch` of `create`: link indices (columns of the padded
transpose of the per-node type lists) mixing IPv4 and IPv6. -/
def links_ip_mismatch (resolves : String → Bool) (node_list : List Node) :
    List Nat :=
  let per := addr_types_per_node resolves node_list
  let maxLen := per.foldr (fun l acc => max l.length acc) 0
  (List.range maxLen).filter (fun j =>
    let col := per.map (fun l => l.get? j)
    col.contains (some AddrType.ipv6) && col.contains (some AddrType.ipv4))

/-- `create`: validate creating a new minimalistic corosync.conf.  Returns
the ordered report sequence of the source; the address-count-mismatch
report of `addr_count_mismatch_check` is computed by the source but never
appended, so it does not appear here. -/
def create (resolves : String → Bool) (cluster_name : String)
    (node_list : List Node) (transport : String) (force_unresolvable : Bool) :
    List ReportItem :=
  let base := run_collection_of_option_validators
    [("name", cluster_name), ("transport", transport)]
    [value_not_empty "name" "a cluster name" "cluster name",
     value_in "transport" TRANSPORTS_ALL none false]
  let unres := unresolvable_addresses resolves node_list
  let unres_reports :=
    if unres.isEmpty then []
    else [⟨.nodeAddressesUnresolvable unres,
           if force_unresolvable then .warning else .error,
           if force_unresolvable then none
           else some ForceCode.forceNodeAddressesUnresolvable⟩]
  let dup_names := non_unique_names node_list
  let dup_name_reports :=
    if dup_names.isEmpty then []
    else [⟨.corosyncNodeNameDuplication dup_names, .error, none⟩]
  let dup_addrs := non_unique_addrs node_list
  let dup_addr_reports :=
    if dup_addrs.isEmpty then []
    else [⟨.corosyncNodeAddressDuplication dup_addrs, .error, none⟩]
  let mismatch := links_ip_mismatch resolves node_list
  let mismatch_reports :=
    if mismatch.isEmpty then []
    else [⟨.corosyncIpVersionMismatchInLinks mismatch, .error, none⟩]
  base ++ node_reports transport node_list ++ unres_reports ++
    dup_name_reports ++ dup_addr_reports ++ mismatch_reports

/-- The allowed per-link option names of `create_link_list_knet`. -/
def knet_link_allowed : List String :=
  ["ip_version", "linknumber", "link_priority", "mcastport", "ping_interval",
   "ping_precision", "ping_timeout", "pong_count", "transport"]

/-- The per-entry validators of `create_link_list_knet`. -/
def knet_link_validators (mx : Int) : List Validator :=
  [value_in "ip_version" ["ipv4", "ipv6"] none false,
   value_integer_in_range "linknumber" 0 mx none false,
   value_integer_in_range "link_priority" 0 255 none false,
   value_port_number "mcastport" none false,
   value_nonnegative_integer "ping_interval" none false,
   value_nonnegative_integer "ping_precision" none false,
   value_nonnegative_integer "ping_timeout" none false,
   depends_on_option "ping_interval" "ping_timeout",
   depends_on_option "ping_timeout" "ping_interval",
   value_nonnegative_integer "pong_count" none false,
   value_in "transport" ["sctp", "udp"] none false]

/-- `used_link_number` of `create_link_list_knet`: occurrences of each
`linknumber` value across the entries that set one. -/
def used_link_number (link_list : List OptionMap) : List (String × Nat) :=
  countFold (alookup "linknumber") link_list

/-- `create_link_list_knet`: validate creating knet link list options. -/
def create_link_list_knet (link_list : List OptionMap) (max_link_number : Int) :
    List ReportItem :=
  if link_list.isEmpty then []
  else
    let mx : Int := max 0 (min ((LINKS_KNET_MAX : Int) - 1) max_link_number)
    let per := link_list.flatMap (fun options =>
      run_collection_of_option_validators options (knet_link_validators mx) ++
        names_in knet_link_allowed (keyList options) "link" none false [])
    let non_unique :=
      ((used_link_number link_list).filter (fun p => 1 < p.2)).map Prod.fst
    let dup :=
      if non_unique.isEmpty then []
      else [⟨.corosyncLinkNumberDuplication non_unique, .error, none⟩]
    let tooMany :=
      if LINKS_KNET_MAX < link_list.length then
        [⟨.corosyncTooManyLinks link_list.length LINKS_KNET_MAX "knet", .error, none⟩]
      else []
    per ++ dup ++ tooMany

/-- `create_transport_knet`: validate creating knet transport options
(generic, compression and crypto sections plus the cipher/hash
cross-check with the defaults of `man corosync.conf`). -/
def create_transport_knet (generic_options compression_options crypto_options :
    OptionMap) : List ReportItem :=
  let base :=
    run_collection_of_option_validators generic_options
      [value_in "ip_version" ["ipv4", "ipv6"] none false,
       value_nonnegative_integer "knet_pmtud_interval" none false,
       value_in "link_mode" ["active", "passive", "rr"] none false] ++
    names_in ["ip_version", "knet_pmtud_interval", "link_mode"]
      (keyList generic_options) "transport" none false [] ++
    run_collection_of_option_validators compression_options
      [value_not_empty "level" "a compression level e.g. 0..9" "level",
       value_not_empty "model" "a compression model e.g. zlib, lz4 or bzip2" "model",
       value_nonnegative_integer "threshold" none false] ++
    names_in ["level", "model", "threshold"]
      (keyList compression_options) "compression" none false [] ++
    run_collection_of_option_validators crypto_options
      [value_in "cipher" ["none", "aes256", "aes192", "aes128", "3des"] none false,
       value_in "hash" ["none", "md5", "sha1", "sha256", "sha384", "sha512"] none false,
       value_in "model" ["nss", "openssl"] none false] ++
    names_in ["cipher", "hash", "model"]
      (keyList crypto_options) "crypto" none false []
  let cross :=
    if ((alookup "cipher" crypto_options).getD "aes256" ≠ "none") &&
        ((alookup "hash" crypto_options).getD "sha1" = "none") then
      [⟨.corosyncCryptoCipherRequiresCryptoHash, .error, none⟩]
    else []
  base ++ cross

/-- `_QDEVICE_NET_REQUIRED_OPTIONS`. -/
def _QDEVICE_NET_REQUIRED_OPTIONS : List String := ["algorithm", "host"]

/-- `_QDEVICE_NET_OPTIONAL_OPTIONS`. -/
def _QDEVICE_NET_OPTIONAL_OPTIONS : List String :=
  ["connect_timeout", "force_ip_version", "port", "tie_breaker"]

/-- `_validate_qdevice_net_algorithm`: skipped when `algorithm` is absent;
an empty value gets a distinct non-forceable report, otherwise `value_in`
over the two algorithms applies. -/
def _validate_qdevice_net_algorithm (code : Option ForceCode) (force : Bool) :
    Validator := fun m =>
  match alookup "algorithm" m with
  | none => []
  | some v =>
    if v = "" then
      [⟨.invalidOptionValue "algorithm" v ["ffsplit", "lms"], .error, none⟩]
    else value_in "algorithm" ["ffsplit", "lms"] code force m

/-- `_get_qdevice_model_net_options_validators`. -/
def _get_qdevice_model_net_options_validators (node_ids : List String)
    (allow_empty_values force_options : Bool) : List Validator :=
  let pairs : List (String × Validator) :=
    [("connect_timeout",
       value_integer_in_range "connect_timeout" 1000 120000
         (some ForceCode.forceOptions) force_options),
     ("force_ip_version",
       value_in "force_ip_version" ["0", "4", "6"]
         (some ForceCode.forceOptions) force_options),
     ("port", value_port_number "port" (some ForceCode.forceOptions) force_options),
     ("tie_breaker",
       value_in "tie_breaker" (["lowest", "highest"] ++ node_ids)
         (some ForceCode.forceOptions) force_options)]
  [value_not_empty "host" "a qdevice host address" "host",
   _validate_qdevice_net_algorithm (some ForceCode.forceOptions) force_options] ++
    (if allow_empty_values then
      pairs.map (fun p => value_empty_or_valid p.1 p.2)
    else pairs.map Prod.snd)

/-- `_qdevice_add_model_net_options`. -/
def _qdevice_add_model_net_options (options : OptionMap) (node_ids : List String)
    (force_options : Bool) : List ReportItem :=
  run_collection_of_option_validators options
    ((_QDEVICE_NET_REQUIRED_OPTIONS.map
        (fun name => is_required name "quorum device model")) ++
      _get_qdevice_model_net_options_validators node_ids false force_options) ++
    names_in (_QDEVICE_NET_REQUIRED_OPTIONS ++ _QDEVICE_NET_OPTIONAL_OPTIONS)
      (keyList options) "quorum device model"
      (some ForceCode.forceOptions) force_options []

/-- `_qdevice_update_model_net_options`. -/
def _qdevice_update_model_net_options (options : OptionMap) (node_ids : List String)
    (force_options : Bool) : List ReportItem :=
  run_collection_of_option_validators options
    (_get_qdevice_model_net_options_validators node_ids true force_options) ++
    names_in (_QDEVICE_NET_REQUIRED_OPTIONS ++ _QDEVICE_NET_OPTIONAL_OPTIONS)
      (keyList options) "quorum device model"
      (some ForceCode.forceOptions) force_options []

/-- `_get_qdevice_generic_options_validators`. -/
def _get_qdevice_generic_options_validators (allow_empty_values force_options : Bool) :
    List Validator :=
  let pairs : List (String × Validator) :=
    [("sync_timeout",
       value_positive_integer "sync_timeout" (some ForceCode.forceOptions) force_options),
     ("timeout",
       value_positive_integer "timeout" (some ForceCode.forceOptions) force_options)]
  if allow_empty_values then pairs.map (fun p => value_empty_or_valid p.1 p.2)
  else pairs.map Prod.snd

/-- `_validate_qdevice_generic_options_names`: the reserved name `model`
is reported separately (never forceable) from the other unknown names
(forceable). -/
def _validate_qdevice_generic_options_names (options : OptionMap)
    (force_options : Bool) : List ReportItem :=
  let allowed_options := ["sync_timeout", "timeout"]
  let invalid := (keyList options).filter
    (fun n => !(allowed_options.contains n) && !(n == "model"))
  let model_reports :=
    if (keyList options).contains "model" then
      [⟨.invalidOptions ["model"] allowed_options "quorum device" [], .error, none⟩]
    else []
  let invalid_reports :=
    if invalid.isEmpty then []
    else [downgrade (some ForceCode.forceOptions) force_options
      (.invalidOptions invalid allowed_options "quorum device" [])]
  model_reports ++ invalid_reports

/-- `_qdevice_add_generic_options`. -/
def _qdevice_add_generic_options (options : OptionMap) (force_options : Bool) :
    List ReportItem :=
  run_collection_of_option_validators options
    (_get_qdevice_generic_options_validators false force_options) ++
    _validate_qdevice_generic_options_names options force_options

/-- `_qdevice_update_generic_options`. -/
def _qdevice_update_generic_options (options : OptionMap) (force_options : Bool) :
    List ReportItem :=
  run_collection_of_option_validators options
    (_get_qdevice_generic_options_validators true force_options) ++
    _validate_qdevice_generic_options_names options force_options

/-- `_split_heuristics_exec_options`: split the heuristics map into
non-exec and `exec_`-prefixed options, preserving order. -/
def _split_heuristics_exec_options (options : OptionMap) : OptionMap × OptionMap :=
  (options.filter (fun p => !("exec_".data.isPrefixOf p.1.data)),
   options.filter (fun p => "exec_".data.isPrefixOf p.1.data))

/-- Modelled from the spec:
`constants.QUORUM_DEVICE_HEURISTICS_EXEC_NAME_RE`, the strict
character-blacklist regex for `exec_NAME` heuristics options: a non-empty
suffix after `exec_` with no `.`, `:`, braces, `#` or whitespace. -/
def exec_name_re_match (name : String) : Bool :=
  "exec_".data.isPrefixOf name.data &&
    !(name.data.drop 5).isEmpty &&
    (name.data.drop 5).all (fun c =>
      !(c == '.' || c == ':' || c == Char.ofNat 123 || c == Char.ofNat 125 ||
        c == '#' || c.isWhitespace))

/-- The report message of `_validate_heuristics_exec_option_names`. -/
def exec_name_message : String :=
  "exec_NAME cannot contain .:\x7b\x7d# and whitespace characters"

/-- `_validate_heuristics_exec_option_names`: never forceable; returns the
reports plus the list of valid `exec_` option names. -/
def _validate_heuristics_exec_option_names (options_exec : OptionMap) :
    List ReportItem × List String :=
  let valid_options := (keyList options_exec).filter exec_name_re_match
  let not_valid_options := (keyList options_exec).filter
    (fun n => !(exec_name_re_match n))
  (if not_valid_options.isEmpty then []
   else [⟨.invalidUserdefinedOptions not_valid_options exec_name_message "heuristics",
          .error, none⟩],
   valid_options)

/-- `_validate_heuristics_noexec_option_names`. -/
def _validate_heuristics_noexec_option_names (options_nonexec : OptionMap)
    (force_options : Bool) : List ReportItem :=
  names_in ["interval", "mode", "sync_timeout", "timeout"]
    (keyList options_nonexec) "heuristics"
    (some ForceCode.forceOptions) force_options ["exec_NAME"]

/-- `_get_qdevice_heuristics_options_validators`. -/
def _get_qdevice_heuristics_options_validators
    (allow_empty_values force_options : Bool) : List Validator :=
  let pairs : List (String × Validator) :=
    [("mode",
       value_in "mode" ["off", "on", "sync"] (some ForceCode.forceOptions) force_options),
     ("interval",
       value_positive_integer "interval" (some ForceCode.forceOptions) force_options),
     ("sync_timeout",
       value_positive_integer "sync_timeout" (some ForceCode.forceOptions) force_options),
     ("timeout",
       value_positive_integer "timeout" (some ForceCode.forceOptions) force_options)]
  if allow_empty_values then pairs.map (fun p => value_empty_or_valid p.1 p.2)
  else pairs.map Prod.snd

/-- `_qdevice_add_heuristics_options`: on add, each valid `exec_` option
additionally requires a non-empty command value. -/
def _qdevice_add_heuristics_options (options : OptionMap) (force_options : Bool) :
    List ReportItem :=
  let split := _split_heuristics_exec_options options
  let exec_result := _validate_heuristics_exec_option_names split.2
  let validators := _get_qdevice_heuristics_options_validators false force_options ++
    exec_result.2.map (fun o => value_not_empty o "a command to be run" o)
  run_collection_of_option_validators options validators ++
    _validate_heuristics_noexec_option_names split.1 force_options ++
    exec_result.1

/-- `_qdevice_update_heuristics_options`: on update an `exec_` value may
be emptied to remove it, so no value validation is added. -/
def _qdevice_update_heuristics_options (options : OptionMap) (force_options : Bool) :
    List ReportItem :=
  let split := _split_heuristics_exec_options options
  let exec_result := _validate_heuristics_exec_option_names split.2
  run_collection_of_option_validators options
    (_get_qdevice_heuristics_options_validators true force_options) ++
    _validate_heuristics_noexec_option_names split.1 force_options ++
    exec_result.1

/-- `add_quorum_device`: only the model `net` has a validator; any other
model gets the `value_in` report over the implemented models, forceable
via `force_model`. -/
def add_quorum_device (model : String) (model_options generic_options
    heuristics_options : OptionMap) (node_ids : List String)
    (force_model force_options : Bool) : List ReportItem :=
  let report_items :=
    if model = "net" then
      _qdevice_add_model_net_options model_options node_ids force_options
    else
      run_collection_of_option_validators [("model", model)]
        [value_in "model" ["net"] (some ForceCode.forceQdeviceModel) force_model]
  report_items ++ _qdevice_add_generic_options generic_options force_options ++
    _qdevice_add_heuristics_options heuristics_options force_options

/-- `update_quorum_device`: the model is never changed nor validated; an
unrecognized model simply contributes no model-specific reports. -/
def update_quorum_device (model : String) (model_options generic_options
    heuristics_options : OptionMap) (node_ids : List String)
    (force_options : Bool) : List ReportItem :=
  let report_items :=
    if model = "net" then
      _qdevice_update_model_net_options model_options node_ids force_options
    else []
  report_items ++ _qdevice_update_generic_options generic_options force_options ++
    _qdevice_update_heuristics_options heuristics_options force_options

/-- A configuration-tree element (spec section 3 `ConfigTree`): tag,
attributes and ordered children; parenthood is recovered by enumeration,
keeping ownership top-down (spec section 9). -/
inductive XElem where
  | mk : String → List (String × String) → List XElem → XElem

/-- The tag of an element. -/
def XElem.tag : XElem → String
  | .mk t _ _ => t

/-- The attribute map of an element (`export_attributes`). -/
def XElem.attrib : XElem → List (String × String)
  | .mk _ a _ => a

/-- The children of an element. -/
def XElem.children : XElem → List XElem
  | .mk _ _ ch => ch

/-- The `id` attribute of an element, defaulting to the empty string
(the embedded code only reads ids of elements that carry one). -/
def attrId (e : XElem) : String :=
  (alookup "id" e.attrib).getD ""

mutual

/-- All (element, ancestor-chain) pairs of a subtree in document order;
the ancestor chain is nearest-first (the non-owning parent back-reference
of spec section 9). -/
def nodesWithAnc : XElem → List XElem → List (XElem × List XElem)
  | .mk t a ch, anc =>
    (XElem.mk t a ch, anc) :: forestNodesWithAnc ch (XElem.mk t a ch :: anc)

/-- The (element, ancestor-chain) pairs of a forest of subtrees. -/
def forestNodesWithAnc : List XElem → List XElem → List (XElem × List XElem)
  | [], _ => []
  | c :: cs, anc => nodesWithAnc c anc ++ forestNodesWithAnc cs anc

end

/-- All elements of a subtree, the root first (document order). -/
def subtreeElems (e : XElem) : List XElem :=
  (nodesWithAnc e []).map Prod.fst

/-- All proper descendants of an element in document order (the lxml
`findall(".//...")` element sequence before tag filtering). -/
def descendants (e : XElem) : List XElem :=
  e.children.flatMap subtreeElems

/-- Modelled from the spec: the tree find-by-id access;
`resource.find_by_id` returning the matching element, here paired with its
ancestor chain so the parent walk of `find_parent` can be replayed. -/
def resource_find_by_id (cib : XElem) (id : String) :
    Option (XElem × List XElem) :=
  (nodesWithAnc cib []).find? (fun p => alookup "id" p.1.attrib == some id)

/-- Modelled from the spec: `resource.TAGS_CLONE`, the clone/master
wrapper tags. -/
def TAGS_CLONE : List String := ["clone", "master"]

/-- Modelled from the spec: `find_parent`, the nearest ancestor whose tag
is in the given tag set. -/
def find_parent (anc : List XElem) (tags : List String) : Option XElem :=
  anc.find? (fun e => tags.contains e.tag)

/-- `find_valid_resource_id`: resolve a user-supplied resource reference
against the tree, honouring clone/master wrapping; failures are the
`LibraryError` report of the source. -/
def find_valid_resource_id (cib : XElem) (can_repair_to_clone in_clone_allowed : Bool)
    (id : String) : Except RKind String :=
  match resource_find_by_id cib id with
  | none => .error (.resourceDoesNotExist id)
  | some (resource_element, anc) =>
    if TAGS_CLONE.contains resource_element.tag then .ok (attrId resource_element)
    else
      match find_parent anc TAGS_CLONE with
      | none => .ok (attrId resource_element)
      | some clone =>
        if can_repair_to_clone then .ok (attrId clone)
        else if in_clone_allowed then .ok (attrId resource_element)
        else if clone.tag = "master" then
          .error (.resourceIsInMaster (attrId resource_element) (attrId clone))
        else
          .error (.resourceIsInClone (attrId resource_element) (attrId clone))

/-- Modelled from the spec: `resource_set.get_resource_id_set_list`, the
ordered resource ids referenced inside one resource-set element. -/
def get_resource_id_set_list (e : XElem) : List String :=
  ((descendants e).filter (fun d => d.tag == "resource_ref")).map attrId

/-- The ordered id-set sequence of a constraint element
(`element.findall(".//resource_set")` mapped through the id-set reader). -/
def get_id_set_list (e : XElem) : List (List String) :=
  ((descendants e).filter (fun d => d.tag == "resource_set")).map
    get_resource_id_set_list

/-- `have_duplicit_resource_sets`: two constraints are duplicates iff
their ordered sequences of ordered resource-id sets are equal. -/
def have_duplicit_resource_sets (e other : XElem) : Bool :=
  get_id_set_list e == get_id_set_list other

/-- Modelled from the spec: `resource_set.export`. -/
def resource_set_export (e : XElem) : ResourceSetExport :=
  ⟨get_resource_id_set_list e, e.attrib⟩

/-- `export_with_set`: the exported form of a constraint element. -/
def export_with_set (e : XElem) : ConstraintExport :=
  ⟨((descendants e).filter (fun d => d.tag == "resource_set")).map
     resource_set_export,
   e.attrib⟩

/-- The conflicting siblings collected by `check_is_without_duplication`:
descendants of the constraint section with the element's tag, other than
the element itself (Python object identity, embedded as the element's
index `i` in the descendant enumeration), accepted by `are_duplicit`. -/
def duplicit_element_list (are_duplicit : XElem → XElem → Bool)
    (constraint_section element : XElem) (i : Nat) : List XElem :=
  ((enumFrom 0 (descendants constraint_section)).filter
    (fun p => p.2.tag == element.tag && !(p.1 == i) && are_duplicit element p.2)).map
    Prod.snd

/-- `check_is_without_duplication`: fail with the exported forms of every
conflicting sibling, succeed otherwise. -/
def check_is_without_duplication (are_duplicit : XElem → XElem → Bool)
    (export_element : XElem → ConstraintExport)
    (constraint_section element : XElem) (i : Nat) : Except RKind Unit :=
  let l := duplicit_element_list are_duplicit constraint_section element i
  if l.isEmpty then .ok ()
  else .error (.duplicitConstraintsExist element.tag (l.map export_element))

theorem alookup_append_of_some {m1 m2 : List (String × α)} {k : String} {v : α}
    (h : alookup k m1 = some v) : alookup k (m1 ++ m2) = some v := by
  induction m1 with
  | nil => simp [alookup] at h
  | cons p t ih =>
    obtain ⟨a, w⟩ := p
    by_cases hak : a = k
    · simpa [alookup, hak] using h
    · simp only [alookup, hak, if_false, List.cons_append] at h ⊢
      simp [alookup, hak]
      exact ih h

theorem alookup_append_of_none {m1 m2 : List (String × α)} {k : String}
    (h : alookup k m1 = none) : alookup k (m1 ++ m2) = alookup k m2 := by
  induction m1 with
  | nil => simp [alookup]
  | cons p t ih =>
    obtain ⟨a, w⟩ := p
    by_cases hak : a = k
    · simp [alookup, hak] at h
    · simp only [alookup, hak, if_false, List.cons_append] at h ⊢
      simp [alookup, hak]
      exact ih h

theorem alookup_mem {m : List (String × α)} {k : String} {v : α}
    (h : alookup k m = some v) : (k, v) ∈ m := by
  induction m with
  | nil => simp [alookup] at h
  | cons p t ih =>
    obtain ⟨a, w⟩ := p
    by_cases hak : a = k
    · subst hak
      simp [alookup] at h
      simp [h]
    · simp only [alookup, hak, if_false] at h
      exact List.mem_cons_of_mem _ (ih h)

theorem mem_alookup {m : List (String × α)} {k : String} {v : α}
    (hnd : (keyList m).Nodup) (hm : (k, v) ∈ m) : alookup k m = some v := by
  induction m with
  | nil => simp at hm
  | cons p t ih =>
    obtain ⟨a, w⟩ := p
    simp only [keyList, List.map_cons, List.nodup_cons] at hnd
    rcases List.mem_cons.mp hm with h1 | h2
    · obtain ⟨hk, hv⟩ := Prod.mk.injEq .. ▸ h1
      simp [alookup, hk.symm, hv]
    · have hak : a ≠ k := by
        intro hak
        subst hak
        exact hnd.1 (List.mem_map.mpr ⟨(a, v), h2, rfl⟩)
      simp only [alookup, hak, if_false]
      exact ih hnd.2 h2

theorem alookup_isSome_mem_keyList {m : List (String × α)} {k : String}
    (h : (alookup k m).isSome) : k ∈ keyList m := by
  cases hv : alookup k m with
  | none => simp [hv] at h
  | some v => exact List.mem_map.mpr ⟨(k, v), alookup_mem hv, rfl⟩

theorem alookup_bump_self (k : String) (m : List (String × Nat)) :
    alookup k (bump k m) = some ((alookup k m).getD 0 + 1) := by
  induction m with
  | nil => simp [bump, alookup]
  | cons p t ih =>
    obtain ⟨a, n⟩ := p
    by_cases hak : a = k
    · simp [bump, alookup, hak]
    · simp [bump, alookup, hak, ih]

theorem alookup_bump_other {k k' : String} (m : List (String × Nat))
    (h : k' ≠ k) : alookup k' (bump k m) = alookup k' m := by
  have hkk : k ≠ k' := Ne.symm h
  induction m with
  | nil => simp [bump, alookup, hkk]
  | cons p t ih =>
    obtain ⟨a, n⟩ := p
    by_cases hak : a = k
    · subst hak
      simp [bump, alookup, hkk]
    · by_cases hak' : a = k'
      · simp [bump, alookup, hak, hak', h]
      · simp [bump, alookup, hak, hak', ih]

theorem keyList_bump (k : String) (m : List (String × Nat)) :
    keyList (bump k m) = if k ∈ keyList m then keyList m else keyList m ++ [k] := by
  induction m with
  | nil => simp [bump, keyList]
  | cons p t ih =>
    obtain ⟨a, n⟩ := p
    by_cases hak : a = k
    · subst hak
      simp [bump, keyList]
    · have hka : ¬ (k = a) := fun hh => hak hh.symm
      simp only [bump, if_neg hak, keyList, List.map_cons] at ih ⊢
      rw [ih]
      by_cases hmem : k ∈ List.map Prod.fst t
      · simp [List.mem_cons, hka, hmem]
      · simp [List.mem_cons, hka, hmem]

theorem nodup_keyList_bump {k : String} {m : List (String × Nat)}
    (h : (keyList m).Nodup) : (keyList (bump k m)).Nodup := by
  rw [keyList_bump]
  by_cases hmem : k ∈ keyList m
  · simpa [hmem] using h
  · simp only [hmem, if_false]
    simp [List.nodup_append, h, hmem]

theorem alookup_foldl_bump (f : α → Option String) (l : List α)
    (init : List (String × Nat)) (k : String) :
    alookup k (l.foldl
        (fun m a => match f a with | some k2 => bump k2 m | none => m) init) =
      match alookup k init with
      | some n => some (n + occurrences f l k)
      | none =>
        if occurrences f l k = 0 then none else some (occurrences f l k) := by
  induction l generalizing init with
  | nil => cases h : alookup k init <;> simp [occurrences, h]
  | cons a t ih =>
    simp only [List.foldl_cons]
    cases hfa : f a with
    | none =>
      simp only [hfa]
      rw [ih]
      have hocc : occurrences f (a :: t) k = occurrences f t k := by
        simp [occurrences, List.countP_cons, hfa]
      rw [hocc]
    | some v =>
      simp only [hfa]
      by_cases hvk : v = k
      · rw [ih, hvk, alookup_bump_self]
        have hocc : occurrences f (a :: t) k = occurrences f t k + 1 := by
          simp [occurrences, List.countP_cons, hfa, hvk]
        rw [hocc]
        cases h : alookup k init <;> simp [h] <;> omega
      · rw [ih, alookup_bump_other _ (Ne.symm hvk)]
        have hocc : occurrences f (a :: t) k = occurrences f t k := by
          simp [occurrences, List.countP_cons, hfa, hvk]
        rw [hocc]

theorem alookup_countFold (f : α → Option String) (l : List α) (k : String) :
    alookup k (countFold f l) =
      if occurrences f l k = 0 then none else some (occurrences f l k) := by
  have h := alookup_foldl_bump f l [] k
  simpa [countFold, alookup] using h

theorem nodup_keyList_foldl_bump (f : α → Option String) (l : List α)
    (init : List (String × Nat)) (h : (keyList init).Nodup) :
    (keyList (l.foldl
      (fun m a => match f a with | some k2 => bump k2 m | none => m) init)).Nodup := by
  induction l generalizing init with
  | nil => simpa using h
  | cons a t ih =>
    simp only [List.foldl_cons]
    cases hfa : f a with
    | none =>
      simp only [hfa]
      exact ih _ h
    | some v =>
      simp only [hfa]
      exact ih _ (nodup_keyList_bump h)

theorem nodup_keyList_countFold (f : α → Option String) (l : List α) :
    (keyList (countFold f l)).Nodup := by
  exact nodup_keyList_foldl_bump f l [] (by simp [keyList])

theorem mem_countFold_iff (f : α → Option String) (l : List α) (k : String)
    (c : Nat) : (k, c) ∈ countFold f l ↔ (occurrences f l k = c ∧ 0 < c) := by
  constructor
  · intro h
    have hl := mem_alookup (nodup_keyList_countFold f l) h
    rw [alookup_countFold] at hl
    by_cases h0 : occurrences f l k = 0
    · simp [h0] at hl
    · simp only [h0, if_false, Option.some.injEq] at hl
      omega
  · rintro ⟨h1, h2⟩
    apply alookup_mem
    rw [alookup_countFold, h1]
    simp
    omega

theorem mem_countFold_dups_iff (f : α → Option String) (l : List α) (k : String) :
    k ∈ (((countFold f l).filter (fun p => 1 < p.2)).map Prod.fst) ↔
      1 < occurrences f l k := by
  constructor
  · intro h
    obtain ⟨p, hp, hpk⟩ := List.mem_map.mp h
    obtain ⟨hpm, hp2⟩ := List.mem_filter.mp hp
    obtain ⟨q1, q2⟩ := (mem_countFold_iff f l p.1 p.2).mp (by
      have : (p.1, p.2) = p := rfl
      rw [this]
      exact hpm)
    have hlt : 1 < p.2 := by simpa using hp2
    rw [← hpk, q1]
    exact hlt
  · intro h
    refine List.mem_map.mpr ⟨(k, occurrences f l k), ?_, rfl⟩
    refine List.mem_filter.mpr ⟨?_, by simpa using h⟩
    exact (mem_countFold_iff f l k _).mpr ⟨rfl, by omega⟩

theorem alookup_memoInsert_self (k : String) (v : α) (m : List (String × α)) :
    alookup k (memoInsert k v m) = some ((alookup k m).getD v) := by
  unfold memoInsert
  cases h : alookup k m with
  | some w => simp [h]
  | none => simp [h, alookup_append_of_none h, alookup]

theorem alookup_memoInsert_other {k k' : String} (h : k' ≠ k) (v : α)
    (m : List (String × α)) : alookup k' (memoInsert k v m) = alookup k' m := by
  unfold memoInsert
  cases hm : alookup k m with
  | some w => rfl
  | none =>
    cases hm' : alookup k' m with
    | some w => exact alookup_append_of_some hm'
    | none =>
      rw [alookup_append_of_none hm']
      simp [alookup, Ne.symm h]

theorem alookup_foldl_memo (g : String → β) (l : List String)
    (init : List (String × β)) (k : String) :
    alookup k (l.foldl (fun m a => memoInsert a (g a) m) init) =
      match alookup k init with
      | some w => some w
      | none => if k ∈ l then some (g k) else none := by
  induction l generalizing init with
  | nil => cases h : alookup k init <;> simp [h]
  | cons a t ih =>
    simp only [List.foldl_cons]
    rw [ih]
    by_cases hak : a = k
    · subst hak
      rw [alookup_memoInsert_self]
      cases h : alookup a init <;> simp [h]
    · rw [alookup_memoInsert_other (Ne.symm hak)]
      cases h : alookup k init with
      | some w => simp [h]
      | none =>
        have hka : ¬ (k = a) := fun hh => hak hh.symm
        simp [h, List.mem_cons, hka]

theorem mem_foldl_memo_val (g : String → β) (l : List String)
    (init : List (String × β)) (hinv : ∀ p ∈ init, p.2 = g p.1) :
    ∀ p ∈ l.foldl (fun m a => memoInsert a (g a) m) init, p.2 = g p.1 := by
  induction l generalizing init with
  | nil => simpa using hinv
  | cons a t ih =>
    simp only [List.foldl_cons]
    apply ih
    intro p hp
    unfold memoInsert at hp
    cases hm : alookup a init with
    | some w =>
      rw [hm] at hp
      exact hinv p hp
    | none =>
      rw [hm] at hp
      rcases List.mem_append.mp hp with h1 | h2
      · exact hinv p h1
      · simp only [List.mem_singleton] at h2
        rw [h2]

theorem mem_foldl_memo_keys (g : String → β) (l : List String)
    (init : List (String × β)) (p : String × β)
    (hp : p ∈ l.foldl (fun m a => memoInsert a (g a) m) init) :
    p ∈ init ∨ p.1 ∈ l := by
  induction l generalizing init with
  | nil =>
    left
    simpa using hp
  | cons a t ih =>
    simp only [List.foldl_cons] at hp
    rcases ih _ hp with h1 | h2
    · unfold memoInsert at h1
      cases hm : alookup a init with
      | some w =>
        rw [hm] at h1
        left
        exact h1
      | none =>
        rw [hm] at h1
        rcases List.mem_append.mp h1 with h3 | h4
        · left
          exact h3
        · simp only [List.mem_singleton] at h4
          right
          rw [h4]
          exact List.mem_cons_self a t
    · right
      exact List.mem_cons_of_mem a h2

theorem mem_all_addrs_type_iff (resolves : String → Bool) (node_list : List Node)
    (a : String) (t : AddrType) :
    (a, t) ∈ all_addrs_type resolves node_list ↔
      (a ∈ addrs_of node_list ∧ t = _get_address_type resolves a) := by
  constructor
  · intro h
    have hval := mem_foldl_memo_val (_get_address_type resolves)
      (addrs_of node_list) [] (by simp) (a, t) h
    have hkey := mem_foldl_memo_keys (_get_address_type resolves)
      (addrs_of node_list) [] (a, t) h
    rcases hkey with h1 | h2
    · simp at h1
    · exact ⟨h2, hval⟩
  · rintro ⟨h1, h2⟩
    have hl : alookup a (all_addrs_type resolves node_list) =
        some (_get_address_type resolves a) := by
      unfold all_addrs_type
      rw [alookup_foldl_memo]
      simp [alookup, h1]
    rw [h2]
    exact alookup_mem hl

theorem mem_unresolvable_addresses_iff (resolves : String → Bool)
    (node_list : List Node) (a : String) :
    a ∈ unresolvable_addresses resolves node_list ↔
      (a ∈ addrs_of node_list ∧
        _get_address_type resolves a = AddrType.unresolvable) := by
  unfold unresolvable_addresses
  constructor
  · intro h
    obtain ⟨p, hp, hpk⟩ := List.mem_map.mp h
    obtain ⟨hpm, hp2⟩ := List.mem_filter.mp hp
    have hunres : p.2 = AddrType.unresolvable := by simpa using hp2
    obtain ⟨h1, h2⟩ := (mem_all_addrs_type_iff resolves node_list p.1 p.2).mp
      (by
        have hpp : (p.1, p.2) = p := rfl
        rw [hpp]
        exact hpm)
    rw [← hpk]
    exact ⟨h1, by rw [← h2, hunres]⟩
  · rintro ⟨h1, h2⟩
    apply List.mem_map.mpr
    refine ⟨(a, AddrType.unresolvable), ?_, rfl⟩
    refine List.mem_filter.mpr ⟨?_, by simp⟩
    exact (mem_all_addrs_type_iff resolves node_list a _).mpr ⟨h1, h2.symm⟩

theorem downgrade_kind (code : Option ForceCode) (force : Bool) (k : RKind) :
    (downgrade code force k).kind = k := by
  unfold downgrade
  split <;> rfl

theorem mem_run_collection {r : ReportItem} {m : OptionMap} {vs : List Validator}
    (h : r ∈ run_collection_of_option_validators m vs) : ∃ v ∈ vs, r ∈ v m := by
  unfold run_collection_of_option_validators at h
  simpa using List.mem_flatMap.mp h

/-- Kinds producible by the generic option-validator combinators. -/
def isFrameworkKind (k : RKind) : Bool :=
  match k with
  | .missingOption _ _ => true
  | .invalidOptionValue _ _ _ => true
  | .invalidOptions _ _ _ _ => true
  | .dependencyUnmet _ _ => true
  | _ => false

theorem mem_is_required {r : ReportItem} {name ctx : String} {m : OptionMap}
    (h : r ∈ is_required name ctx m) :
    r = ⟨.missingOption name ctx, .error, none⟩ := by
  unfold is_required at h
  split at h
  · simpa using h
  · simp at h

theorem mem_value_not_empty {r : ReportItem} {name desc reportName : String}
    {m : OptionMap} (h : r ∈ value_not_empty name desc reportName m) :
    ∃ v, r = ⟨.invalidOptionValue reportName v [desc], .error, none⟩ := by
  unfold value_not_empty at h
  split at h
  · simp at h
  · split at h
    · exact ⟨_, by simpa using h⟩
    · simp at h

theorem mem_value_in {r : ReportItem} {name : String} {allowed : List String}
    {code : Option ForceCode} {force : Bool} {m : OptionMap}
    (h : r ∈ value_in name allowed code force m) :
    ∃ v, r = downgrade code force (.invalidOptionValue name v allowed) := by
  unfold value_in at h
  split at h
  · simp at h
  · split at h
    · simp at h
    · exact ⟨_, by simpa using h⟩

theorem mem_value_integer_in_range {r : ReportItem} {name : String} {lo hi : Int}
    {code : Option ForceCode} {force : Bool} {m : OptionMap}
    (h : r ∈ value_integer_in_range name lo hi code force m) :
    ∃ v d, r = downgrade code force (.invalidOptionValue name v d) := by
  unfold value_integer_in_range at h
  split at h
  · simp at h
  · split at h
    · exact ⟨_, _, by simpa using h⟩
    · split at h
      · simp at h
      · exact ⟨_, _, by simpa using h⟩

theorem mem_value_nonnegative_integer {r : ReportItem} {name : String}
    {code : Option ForceCode} {force : Bool} {m : OptionMap}
    (h : r ∈ value_nonnegative_integer name code force m) :
    ∃ v d, r = downgrade code force (.invalidOptionValue name v d) := by
  unfold value_nonnegative_integer at h
  split at h
  · simp at h
  · split at h
    · exact ⟨_, _, by simpa using h⟩
    · split at h
      · simp at h
      · exact ⟨_, _, by simpa using h⟩

theorem mem_value_positive_integer {r : ReportItem} {name : String}
    {code : Option ForceCode} {force : Bool} {m : OptionMap}
    (h : r ∈ value_positive_integer name code force m) :
    ∃ v d, r = downgrade code force (.invalidOptionValue name v d) := by
  unfold value_positive_integer at h
  split at h
  · simp at h
  · split at h
    · exact ⟨_, _, by simpa using h⟩
    · split at h
      · simp at h
      · exact ⟨_, _, by simpa using h⟩

theorem mem_value_port_number {r : ReportItem} {name : String}
    {code : Option ForceCode} {force : Bool} {m : OptionMap}
    (h : r ∈ value_port_number name code force m) :
    ∃ v d, r = downgrade code force (.invalidOptionValue name v d) :=
  mem_value_integer_in_range h

theorem mem_depends_on_option {r : ReportItem} {dependent required : String}
    {m : OptionMap} (h : r ∈ depends_on_option dependent required m) :
    r = ⟨.dependencyUnmet dependent required, .error, none⟩ := by
  unfold depends_on_option at h
  split at h
  · simp at h
  · split at h
    · simpa using h
    · simp at h

theorem mem_names_in {r : ReportItem} {allowed given : List String} {ctx : String}
    {code : Option ForceCode} {allowExtra : Bool} {patterns : List String}
    (h : r ∈ names_in allowed given ctx code allowExtra patterns) :
    ∃ inv, r = downgrade code allowExtra (.invalidOptions inv allowed ctx patterns) := by
  unfold names_in at h
  dsimp only at h
  split at h
  · simp at h
  · exact ⟨_, by simpa using h⟩

theorem mem_value_empty_or_valid {r : ReportItem} {name : String}
    {inner : Validator} {m : OptionMap}
    (h : r ∈ value_empty_or_valid name inner m) : r ∈ inner m := by
  unfold value_empty_or_valid at h
  split at h
  · split at h
    · simp at h
    · exact h
  · exact h

theorem mem_validate_qdevice_net_algorithm {r : ReportItem}
    {code : Option ForceCode} {force : Bool} {m : OptionMap}
    (h : r ∈ _validate_qdevice_net_algorithm code force m) :
    ∃ v, (r = ⟨.invalidOptionValue "algorithm" v ["ffsplit", "lms"], .error, none⟩ ∨
      r = downgrade code force (.invalidOptionValue "algorithm" v ["ffsplit", "lms"])) := by
  unfold _validate_qdevice_net_algorithm at h
  split at h
  · simp at h
  · split at h
    · exact ⟨_, Or.inl (by simpa using h)⟩
    · obtain ⟨v, hv⟩ := mem_value_in h
      exact ⟨v, Or.inr hv⟩

theorem countP_flatMap_zero {p : β → Bool} {f : α → List β} {l : List α}
    (h : ∀ a ∈ l, (f a).countP p = 0) : (l.flatMap f).countP p = 0 := by
  induction l with
  | nil => simp
  | cons a t ih =>
    rw [List.flatMap_cons, List.countP_append]
    rw [h a (List.mem_cons_self a t), ih (fun b hb => h b (List.mem_cons_of_mem a hb))]

/-- Test for the unresolvable-addresses report kind. -/
def isUnresolvableReport (r : ReportItem) : Bool :=
  match r.kind with
  | .nodeAddressesUnresolvable _ => true
  | _ => false

/-- Test for the node-address-count-mismatch report kind. -/
def isCountMismatchReport (r : ReportItem) : Bool :=
  match r.kind with
  | .corosyncNodeAddressCountMismatch _ => true
  | _ => false

/-- Test for the duplicate-linknumber report kind. -/
def isDupLinknumberReport (r : ReportItem) : Bool :=
  match r.kind with
  | .corosyncLinkNumberDuplication _ => true
  | _ => false

/-- Test for the crypto-cipher-requires-crypto-hash report kind. -/
def isCryptoHashReport (r : ReportItem) : Bool :=
  match r.kind with
  | .corosyncCryptoCipherRequiresCryptoHash => true
  | _ => false

/-- Test for a report that the `model` value is invalid. -/
def isModelValueReport (r : ReportItem) : Bool :=
  match r.kind with
  | .invalidOptionValue n _ _ => n == "model"
  | _ => false

theorem framework_not_unres {r : ReportItem} (h : isFrameworkKind r.kind = true) :
    isUnresolvableReport r = false := by
  obtain ⟨k, s, fc⟩ := r
  cases k <;> simp_all [isFrameworkKind, isUnresolvableReport]

theorem framework_not_mismatch {r : ReportItem} (h : isFrameworkKind r.kind = true) :
    isCountMismatchReport r = false := by
  obtain ⟨k, s, fc⟩ := r
  cases k <;> simp_all [isFrameworkKind, isCountMismatchReport]

theorem framework_not_duplink {r : ReportItem} (h : isFrameworkKind r.kind = true) :
    isDupLinknumberReport r = false := by
  obtain ⟨k, s, fc⟩ := r
  cases k <;> simp_all [isFrameworkKind, isDupLinknumberReport]

theorem framework_not_crypto {r : ReportItem} (h : isFrameworkKind r.kind = true) :
    isCryptoHashReport r = false := by
  obtain ⟨k, s, fc⟩ := r
  cases k <;> simp_all [isFrameworkKind, isCryptoHashReport]

theorem fw_node_name_reports {i : Nat} {n : Node} {r : ReportItem}
    (h : r ∈ node_name_reports i n) : isFrameworkKind r.kind = true := by
  obtain ⟨v, hv, hr⟩ := mem_run_collection h
  simp only [List.mem_cons, List.mem_singleton, List.not_mem_nil, or_false] at hv
  rcases hv with hv | hv <;> subst hv
  · rw [mem_is_required hr]
    rfl
  · obtain ⟨x, hx⟩ := mem_value_not_empty hr
    rw [hx]
    rfl

theorem fw_create_base {cn tr : String} {r : ReportItem}
    (h : r ∈ run_collection_of_option_validators [("name", cn), ("transport", tr)]
      [value_not_empty "name" "a cluster name" "cluster name",
       value_in "transport" TRANSPORTS_ALL none false]) :
    isFrameworkKind r.kind = true := by
  obtain ⟨v, hv, hr⟩ := mem_run_collection h
  simp only [List.mem_cons, List.mem_singleton, List.not_mem_nil, or_false] at hv
  rcases hv with hv | hv <;> subst hv
  · obtain ⟨x, hx⟩ := mem_value_not_empty hr
    rw [hx]
    rfl
  · obtain ⟨x, hx⟩ := mem_value_in hr
    rw [hx, downgrade_kind]
    rfl

theorem mem_node_addr_count_report {tr : String} {i : Nat} {n : Node}
    {r : ReportItem} (h : r ∈ node_addr_count_report tr i n) :
    ∃ mn mx, r = ⟨.corosyncBadNodeAddressesCount n.addrs.length mn mx n.name i,
      .error, none⟩ := by
  unfold node_addr_count_report at h
  split at h
  · dsimp only at h
    split at h
    · simp at h
      exact ⟨_, _, h.2⟩
    · simp at h
      exact ⟨_, _, h.2⟩
  · simp at h

theorem countP_node_reports_zero {p : ReportItem → Bool} (tr : String)
    (nl : List Node)
    (hfw : ∀ r, isFrameworkKind r.kind = true → p r = false)
    (hbad : ∀ (cnt mn mx : Nat) (nm : Option String) (i : Nat),
      p ⟨.corosyncBadNodeAddressesCount cnt mn mx nm i, .error, none⟩ = false) :
    (node_reports tr nl).countP p = 0 := by
  unfold node_reports
  apply countP_flatMap_zero
  intro a _
  rw [List.countP_append]
  have h1 : (node_name_reports a.1 a.2).countP p = 0 := by
    apply List.countP_eq_zero.mpr
    intro r hr
    simp [hfw r (fw_node_name_reports hr)]
  have h2 : (node_addr_count_report tr a.1 a.2).countP p = 0 := by
    apply List.countP_eq_zero.mpr
    intro r hr
    obtain ⟨mn, mx, hx⟩ := mem_node_addr_count_report hr
    rw [hx]
    simp [hbad]
  rw [h1, h2]

theorem countP_create_eq_unres_block (resolves : String → Bool)
    (cn : String) (nl : List Node) (tr : String) (f : Bool)
    (p : ReportItem → Bool)
    (hfw : ∀ r, isFrameworkKind r.kind = true → p r = false)
    (hbad : ∀ (cnt mn mx : Nat) (nm : Option String) (i : Nat),
      p ⟨.corosyncBadNodeAddressesCount cnt mn mx nm i, .error, none⟩ = false)
    (hdn : ∀ l, p ⟨.corosyncNodeNameDuplication l, .error, none⟩ = false)
    (hda : ∀ l, p ⟨.corosyncNodeAddressDuplication l, .error, none⟩ = false)
    (him : ∀ l, p ⟨.corosyncIpVersionMismatchInLinks l, .error, none⟩ = false) :
    (create resolves cn nl tr f).countP p =
      if (unresolvable_addresses resolves nl).isEmpty then 0
      else (if p ⟨.nodeAddressesUnresolvable (unresolvable_addresses resolves nl),
              if f then .warning else .error,
              if f then none else some ForceCode.forceNodeAddressesUnresolvable⟩
            then 1 else 0) := by
  unfold create
  dsimp only
  rw [List.countP_append, List.countP_append, List.countP_append,
    List.countP_append, List.countP_append]
  have hb : (run_collection_of_option_validators
      [("name", cn), ("transport", tr)]
      [value_not_empty "name" "a cluster name" "cluster name",
       value_in "transport" TRANSPORTS_ALL none false]).countP p = 0 := by
    apply List.countP_eq_zero.mpr
    intro r hr
    simp [hfw r (fw_create_base hr)]
  rw [hb, countP_node_reports_zero tr nl hfw hbad]
  have h1 : (if (non_unique_names nl).isEmpty then ([] : List ReportItem)
      else [⟨.corosyncNodeNameDuplication (non_unique_names nl), .error, none⟩]).countP
      p = 0 := by
    split
    · simp
    · simp [hdn]
  have h2 : (if (non_unique_addrs nl).isEmpty then ([] : List ReportItem)
      else [⟨.corosyncNodeAddressDuplication (non_unique_addrs nl), .error, none⟩]).countP
      p = 0 := by
    split
    · simp
    · simp [hda]
  have h3 : (if (links_ip_mismatch resolves nl).isEmpty then ([] : List ReportItem)
      else [⟨.corosyncIpVersionMismatchInLinks (links_ip_mismatch resolves nl),
        .error, none⟩]).countP p = 0 := by
    split
    · simp
    · simp [him]
  rw [h1, h2, h3]
  split
  · simp
  · simp [List.countP_cons]

theorem unres_report_mem_create (resolves : String → Bool) (cn : String)
    (nl : List Node) (tr : String) (f : Bool)
    (hne : (unresolvable_addresses resolves nl).isEmpty = false) :
    (⟨.nodeAddressesUnresolvable (unresolvable_addresses resolves nl),
      if f then .warning else .error,
      if f then none else some ForceCode.forceNodeAddressesUnresolvable⟩ :
      ReportItem) ∈ create resolves cn nl tr f := by
  unfold create
  dsimp only
  simp [hne, List.mem_append]

/-- C5: whenever some node address is unresolvable, `create` returns
exactly one unresolvable-addresses report; its payload covers exactly the
unresolvable addresses, and it is an ERROR carrying the force code when
`force_unresolvable` is false, and a WARNING with no force code when
`force_unresolvable` is true. -/
theorem claim_C5_unresolvable_addresses_report (resolves : String → Bool)
    (cluster_name : String) (node_list : List Node) (transport : String)
    (force_unresolvable : Bool)
    (h : ∃ a ∈ addrs_of node_list,
      _get_address_type resolves a = AddrType.unresolvable) :
    (create resolves cluster_name node_list transport force_unresolvable).countP
        isUnresolvableReport = 1 ∧
      ∃ l, (⟨.nodeAddressesUnresolvable l,
              if force_unresolvable then .warning else .error,
              if force_unresolvable then none
              else some ForceCode.forceNodeAddressesUnresolvable⟩ : ReportItem) ∈
            create resolves cluster_name node_list transport force_unresolvable ∧
        ∀ a, a ∈ l ↔ (a ∈ addrs_of node_list ∧
          _get_address_type resolves a = AddrType.unresolvable) := by
  obtain ⟨a0, ha0, ht0⟩ := h
  have hmem : a0 ∈ unresolvable_addresses resolves node_list :=
    (mem_unresolvable_addresses_iff resolves node_list a0).mpr ⟨ha0, ht0⟩
  have hne : (unresolvable_addresses resolves node_list).isEmpty = false := by
    cases hu : unresolvable_addresses resolves node_list with
    | nil =>
      rw [hu] at hmem
      simp at hmem
    | cons x xs => rfl
  constructor
  · rw [countP_create_eq_unres_block resolves cluster_name node_list transport
      force_unresolvable isUnresolvableReport (fun _ hr => framework_not_unres hr)
      (fun _ _ _ _ _ => rfl) (fun _ => rfl) (fun _ => rfl) (fun _ => rfl)]
    rw [hne]
    simp [isUnresolvableReport]
  · exact ⟨unresolvable_addresses resolves node_list,
      unres_report_mem_create resolves cluster_name node_list transport
        force_unresolvable hne,
      fun a => mem_unresolvable_addresses_iff resolves node_list a⟩

theorem claim_C5_unresolvable_addresses_report_witness :
    (create (fun _ => false) "c" [⟨some "n1", ["badhost"]⟩] "knet" false).countP
        isUnresolvableReport = 1 ∧
      ∃ l, (⟨.nodeAddressesUnresolvable l, .error,
              some ForceCode.forceNodeAddressesUnresolvable⟩ : ReportItem) ∈
            create (fun _ => false) "c" [⟨some "n1", ["badhost"]⟩] "knet" false ∧
        ∀ a, a ∈ l ↔ (a ∈ addrs_of [⟨some "n1", ["badhost"]⟩] ∧
          _get_address_type (fun _ => false) a = AddrType.unresolvable) :=
  claim_C5_unresolvable_addresses_report (fun _ => false) "c"
    [⟨some "n1", ["badhost"]⟩] "knet" false ⟨"badhost", by decide, by decide⟩

/-- C9: calling `create` twice with identical cluster name, node list,
transport and force flag returns identical ordered report sequences; with
the name-resolution oracle fixed per run, validation is deterministic. -/
theorem claim_C9_create_deterministic (resolves : String → Bool)
    (cn1 cn2 : String) (nl1 nl2 : List Node) (tr1 tr2 : String) (f1 f2 : Bool)
    (h1 : cn1 = cn2) (h2 : nl1 = nl2) (h3 : tr1 = tr2) (h4 : f1 = f2) :
    create resolves cn1 nl1 tr1 f1 = create resolves cn2 nl2 tr2 f2 := by
  rw [h1, h2, h3, h4]

theorem claim_C9_create_deterministic_witness :
    create (fun _ => false) "c1" [⟨some "n1", ["10.0.0.1"]⟩] "knet" false =
      create (fun _ => false) "c1" [⟨some "n1", ["10.0.0.1"]⟩] "knet" false :=
  claim_C9_create_deterministic (fun _ => false) "c1" "c1"
    [⟨some "n1", ["10.0.0.1"]⟩] [⟨some "n1", ["10.0.0.1"]⟩] "knet" "knet"
    false false rfl rfl rfl rfl

/-- C1: at a node list with unique names and differing per-node address
counts under knet, the address-count-mismatch check of `create` computes
the mismatch report, yet `create` never returns a report of that kind:
the source computes the report at its line 149 and discards it. -/
theorem claim_C1_count_mismatch_computed_but_discarded :
    addr_count_mismatch_check
        [⟨some "n1", ["10.0.0.1"]⟩, ⟨some "n2", ["10.0.0.2", "10.0.0.3"]⟩]
        "knet" =
      some (.corosyncNodeAddressCountMismatch [("n1", 1), ("n2", 2)]) ∧
    ∀ (resolves : String → Bool) (cn : String) (nl : List Node) (tr : String)
      (f : Bool), (create resolves cn nl tr f).countP isCountMismatchReport = 0 := by
  constructor
  · decide
  · intro resolves cn nl tr f
    rw [countP_create_eq_unres_block resolves cn nl tr f isCountMismatchReport
      (fun _ hr => framework_not_mismatch hr) (fun _ _ _ _ _ => rfl)
      (fun _ => rfl) (fun _ => rfl) (fun _ => rfl)]
    split
    · rfl
    · rfl

/-- C4: the concrete call with two nodes both named `n1` over knet returns
exactly the duplicate-name report for `n1` (no address-count-range
report); and in general, whenever some node name occurs more than once,
the cross-node equal-address-count check of `create` is skipped. -/
theorem claim_C4_duplicate_names_disable_count_check :
    (∀ resolves : String → Bool,
      create resolves "c1"
        [⟨some "n1", ["10.0.0.1"]⟩, ⟨some "n1", ["10.0.0.2"]⟩] "knet" false =
      [⟨.corosyncNodeNameDuplication ["n1"], .error, none⟩]) ∧
    ∀ (node_list : List Node) (transport : String),
      (∃ name, 1 < occurrences nodeNameKey node_list name) →
      addr_count_mismatch_check node_list transport = none := by
  constructor
  · intro r
    rfl
  · rintro nl tr ⟨name, hname⟩
    have hmem : name ∈ non_unique_names nl :=
      (mem_countFold_dups_iff nodeNameKey nl name).mpr hname
    have hne : (non_unique_names nl).isEmpty = false := by
      cases hu : non_unique_names nl with
      | nil =>
        rw [hu] at hmem
        simp at hmem
      | cons x xs => rfl
    have husable : all_names_usable nl = false := by
      unfold all_names_usable
      rw [hne]
      simp
    unfold addr_count_mismatch_check
    rw [husable]
    simp

theorem claim_C4_duplicate_names_disable_count_check_witness :
    create (fun _ => false) "c1"
        [⟨some "n1", ["10.0.0.1"]⟩, ⟨some "n1", ["10.0.0.2"]⟩] "knet" false =
      [⟨.corosyncNodeNameDuplication ["n1"], .error, none⟩] ∧
    addr_count_mismatch_check
        [⟨some "n1", ["10.0.0.1"]⟩, ⟨some "n1", ["10.0.0.2"]⟩] "knet" = none :=
  ⟨claim_C4_duplicate_names_disable_count_check.1 (fun _ => false),
   claim_C4_duplicate_names_disable_count_check.2
     [⟨some "n1", ["10.0.0.1"]⟩, ⟨some "n1", ["10.0.0.2"]⟩] "knet"
     ⟨"n1", by decide⟩⟩

theorem fw_knet_link_validators {mx : Int} {v : Validator}
    (hv : v ∈ knet_link_validators mx) {m : OptionMap} {r : ReportItem}
    (hr : r ∈ v m) : isFrameworkKind r.kind = true := by
  unfold knet_link_validators at hv
  simp only [List.mem_cons, List.not_mem_nil, or_false] at hv
  rcases hv with hv|hv|hv|hv|hv|hv|hv|hv|hv|hv|hv <;> subst hv
  · obtain ⟨x, hx⟩ := mem_value_in hr
    rw [hx, downgrade_kind]
    rfl
  · obtain ⟨x, d, hx⟩ := mem_value_integer_in_range hr
    rw [hx, downgrade_kind]
    rfl
  · obtain ⟨x, d, hx⟩ := mem_value_integer_in_range hr
    rw [hx, downgrade_kind]
    rfl
  · obtain ⟨x, d, hx⟩ := mem_value_port_number hr
    rw [hx, downgrade_kind]
    rfl
  · obtain ⟨x, d, hx⟩ := mem_value_nonnegative_integer hr
    rw [hx, downgrade_kind]
    rfl
  · obtain ⟨x, d, hx⟩ := mem_value_nonnegative_integer hr
    rw [hx, downgrade_kind]
    rfl
  · obtain ⟨x, d, hx⟩ := mem_value_nonnegative_integer hr
    rw [hx, downgrade_kind]
    rfl
  · rw [mem_depends_on_option hr]
    rfl
  · rw [mem_depends_on_option hr]
    rfl
  · obtain ⟨x, d, hx⟩ := mem_value_nonnegative_integer hr
    rw [hx, downgrade_kind]
    rfl
  · obtain ⟨x, hx⟩ := mem_value_in hr
    rw [hx, downgrade_kind]
    rfl

theorem countP_duplink_knet_entries_zero (mx : Int) (link_list : List OptionMap) :
    (link_list.flatMap (fun options =>
      run_collection_of_option_validators options (knet_link_validators mx) ++
        names_in knet_link_allowed (keyList options) "link" none false
          [])).countP isDupLinknumberReport = 0 := by
  apply countP_flatMap_zero
  intro o _
  rw [List.countP_append]
  have h1 : (run_collection_of_option_validators o
      (knet_link_validators mx)).countP isDupLinknumberReport = 0 := by
    apply List.countP_eq_zero.mpr
    intro r hr
    obtain ⟨v, hv, hrv⟩ := mem_run_collection hr
    simp [framework_not_duplink (fw_knet_link_validators hv hrv)]
  have h2 : (names_in knet_link_allowed (keyList o) "link" none false
      []).countP isDupLinknumberReport = 0 := by
    apply List.countP_eq_zero.mpr
    intro r hr
    obtain ⟨inv, hx⟩ := mem_names_in hr
    have : isFrameworkKind r.kind = true := by
      rw [hx, downgrade_kind]
      rfl
    simp [framework_not_duplink this]
  rw [h1, h2]

/-- C8: when two or more knet link entries carry the same `linknumber`
(here at least two entries with `"0"`), `create_link_list_knet` returns
exactly one duplicate-linknumber report, and its payload holds exactly the
linknumber values occurring in more than one entry. -/
theorem claim_C8_duplicate_linknumber (link_list : List OptionMap)
    (max_link_number : Int)
    (h : 2 ≤ occurrences (alookup "linknumber") link_list "0") :
    (create_link_list_knet link_list max_link_number).countP
        isDupLinknumberReport = 1 ∧
      ∃ l, (⟨.corosyncLinkNumberDuplication l, .error, none⟩ : ReportItem) ∈
            create_link_list_knet link_list max_link_number ∧
        ∀ v, v ∈ l ↔ 2 ≤ occurrences (alookup "linknumber") link_list v := by
  have hne2 : link_list.isEmpty = false := by
    cases link_list with
    | nil => simp [occurrences] at h
    | cons a t => rfl
  have hmem0 : "0" ∈ ((used_link_number link_list).filter
      (fun p => 1 < p.2)).map Prod.fst :=
    (mem_countFold_dups_iff (alookup "linknumber") link_list "0").mpr h
  have hnune : (((used_link_number link_list).filter
      (fun p => 1 < p.2)).map Prod.fst).isEmpty = false := by
    cases hu : ((used_link_number link_list).filter
        (fun p => 1 < p.2)).map Prod.fst with
    | nil =>
      rw [hu] at hmem0
      simp at hmem0
    | cons x xs => rfl
  have hcond : ¬ (link_list.isEmpty = true) := by
    rw [hne2]
    simp
  unfold create_link_list_knet
  rw [if_neg hcond]
  dsimp only
  constructor
  · rw [List.countP_append, List.countP_append]
    have hdup : (if (((used_link_number link_list).filter
          (fun p => 1 < p.2)).map Prod.fst).isEmpty = true then ([] : List ReportItem)
        else [⟨.corosyncLinkNumberDuplication (((used_link_number link_list).filter
          (fun p => 1 < p.2)).map Prod.fst), .error, none⟩]).countP
        isDupLinknumberReport = 1 := by
      rw [if_neg (by rw [hnune]; simp)]
      rfl
    have htm : (if LINKS_KNET_MAX < link_list.length then
        [(⟨.corosyncTooManyLinks link_list.length LINKS_KNET_MAX "knet",
          .error, none⟩ : ReportItem)] else []).countP isDupLinknumberReport
        = 0 := by
      split
      · rfl
      · rfl
    rw [countP_duplink_knet_entries_zero, hdup, htm]
  · refine ⟨((used_link_number link_list).filter
      (fun p => 1 < p.2)).map Prod.fst, ?_, ?_⟩
    · simp [List.mem_append, hnune]
    · intro v
      exact mem_countFold_dups_iff (alookup "linknumber") link_list v

theorem claim_C8_duplicate_linknumber_witness :
    (create_link_list_knet [[("linknumber", "0")], [("linknumber", "0")]] 7).countP
        isDupLinknumberReport = 1 ∧
      ∃ l, (⟨.corosyncLinkNumberDuplication l, .error, none⟩ : ReportItem) ∈
            create_link_list_knet [[("linknumber", "0")], [("linknumber", "0")]] 7 ∧
        ∀ v, v ∈ l ↔ 2 ≤ occurrences (alookup "linknumber")
          [[("linknumber", "0")], [("linknumber", "0")]] v :=
  claim_C8_duplicate_linknumber [[("linknumber", "0")], [("linknumber", "0")]] 7
    (by decide)

theorem fw_value_in (name : String) (allowed : List String)
    (code : Option ForceCode) (force : Bool) (m : OptionMap) (r : ReportItem)
    (hr : r ∈ value_in name allowed code force m) :
    isFrameworkKind r.kind = true := by
  obtain ⟨x, hx⟩ := mem_value_in hr
  rw [hx, downgrade_kind]
  rfl

theorem fw_value_not_empty (name desc reportName : String) (m : OptionMap)
    (r : ReportItem) (hr : r ∈ value_not_empty name desc reportName m) :
    isFrameworkKind r.kind = true := by
  obtain ⟨x, hx⟩ := mem_value_not_empty hr
  rw [hx]
  rfl

theorem fw_value_nonnegative_integer (name : String) (code : Option ForceCode)
    (force : Bool) (m : OptionMap) (r : ReportItem)
    (hr : r ∈ value_nonnegative_integer name code force m) :
    isFrameworkKind r.kind = true := by
  obtain ⟨x, d, hx⟩ := mem_value_nonnegative_integer hr
  rw [hx, downgrade_kind]
  rfl

theorem fw_value_positive_integer (name : String) (code : Option ForceCode)
    (force : Bool) (m : OptionMap) (r : ReportItem)
    (hr : r ∈ value_positive_integer name code force m) :
    isFrameworkKind r.kind = true := by
  obtain ⟨x, d, hx⟩ := mem_value_positive_integer hr
  rw [hx, downgrade_kind]
  rfl

theorem countP_names_in_zero_of {p : ReportItem → Bool}
    (hfw : ∀ r, isFrameworkKind r.kind = true → p r = false)
    (allowed given : List String) (ctx : String) (code : Option ForceCode)
    (force : Bool) (patterns : List String) :
    (names_in allowed given ctx code force patterns).countP p = 0 := by
  apply List.countP_eq_zero.mpr
  intro r hr
  obtain ⟨inv, hx⟩ := mem_names_in hr
  have hk : isFrameworkKind r.kind = true := by
    rw [hx, downgrade_kind]
    rfl
  simp [hfw r hk]

theorem countP_run_collection_zero_of {p : ReportItem → Bool}
    (hfw : ∀ r, isFrameworkKind r.kind = true → p r = false)
    (m : OptionMap) (vs : List Validator)
    (hvs : ∀ v ∈ vs, ∀ (m2 : OptionMap) (r : ReportItem), r ∈ v m2 →
      isFrameworkKind r.kind = true) :
    (run_collection_of_option_validators m vs).countP p = 0 := by
  apply List.countP_eq_zero.mpr
  intro r hr
  obtain ⟨v, hv, hrv⟩ := mem_run_collection hr
  simp [hfw r (hvs v hv m r hrv)]

/-- C10: `create_transport_knet` cross-checks the effective crypto cipher
(default `aes256`) against the effective crypto hash (default `sha1`): a
non-`none` cipher with a `none` hash yields the
crypto-cipher-requires-crypto-hash report, and an empty crypto option map
yields no such report. -/
theorem claim_C10_crypto_cipher_requires_hash
    (generic_options compression_options crypto_options : OptionMap) :
    (((alookup "cipher" crypto_options).getD "aes256" ≠ "none" ∧
        (alookup "hash" crypto_options).getD "sha1" = "none") →
      (⟨.corosyncCryptoCipherRequiresCryptoHash, .error, none⟩ : ReportItem) ∈
        create_transport_knet generic_options compression_options
          crypto_options) ∧
    ¬ ((⟨.corosyncCryptoCipherRequiresCryptoHash, .error, none⟩ : ReportItem) ∈
        create_transport_knet generic_options compression_options []) := by
  constructor
  · rintro ⟨h1, h2⟩
    unfold create_transport_knet
    dsimp only
    simp [List.mem_append, h1, h2]
  · intro hmem
    unfold create_transport_knet at hmem
    dsimp only at hmem
    have hz : ((run_collection_of_option_validators generic_options
        [value_in "ip_version" ["ipv4", "ipv6"] none false,
         value_nonnegative_integer "knet_pmtud_interval" none false,
         value_in "link_mode" ["active", "passive", "rr"] none false] ++
      names_in ["ip_version", "knet_pmtud_interval", "link_mode"]
        (keyList generic_options) "transport" none false [] ++
      run_collection_of_option_validators compression_options
        [value_not_empty "level" "a compression level e.g. 0..9" "level",
         value_not_empty "model" "a compression model e.g. zlib, lz4 or bzip2"
           "model",
         value_nonnegative_integer "threshold" none false] ++
      names_in ["level", "model", "threshold"]
        (keyList compression_options) "compression" none false [] ++
      run_collection_of_option_validators ([] : OptionMap)
        [value_in "cipher" ["none", "aes256", "aes192", "aes128", "3des"] none
           false,
         value_in "hash" ["none", "md5", "sha1", "sha256", "sha384", "sha512"]
           none false,
         value_in "model" ["nss", "openssl"] none false] ++
      names_in ["cipher", "hash", "model"] (keyList ([] : OptionMap)) "crypto"
        none false []).countP isCryptoHashReport) = 0 := by
      rw [List.countP_append, List.countP_append, List.countP_append,
        List.countP_append, List.countP_append]
      rw [countP_run_collection_zero_of (fun _ h => framework_not_crypto h) _ _
        (by
          intro v hv
          simp only [List.mem_cons, List.not_mem_nil, or_false] at hv
          rcases hv with hv|hv|hv <;> subst hv
          · exact fw_value_in _ _ _ _
          · exact fw_value_nonnegative_integer _ _ _
          · exact fw_value_in _ _ _ _)]
      rw [countP_names_in_zero_of (fun _ h => framework_not_crypto h)]
      rw [countP_run_collection_zero_of (fun _ h => framework_not_crypto h) _ _
        (by
          intro v hv
          simp only [List.mem_cons, List.not_mem_nil, or_false] at hv
          rcases hv with hv|hv|hv <;> subst hv
          · exact fw_value_not_empty _ _ _
          · exact fw_value_not_empty _ _ _
          · exact fw_value_nonnegative_integer _ _ _)]
      rw [countP_names_in_zero_of (fun _ h => framework_not_crypto h)]
      rw [countP_run_collection_zero_of (fun _ h => framework_not_crypto h) _ _
        (by
          intro v hv
          simp only [List.mem_cons, List.not_mem_nil, or_false] at hv
          rcases hv with hv|hv|hv <;> subst hv
          · exact fw_value_in _ _ _ _
          · exact fw_value_in _ _ _ _
          · exact fw_value_in _ _ _ _)]
      rw [countP_names_in_zero_of (fun _ h => framework_not_crypto h)]
    rw [List.mem_append] at hmem
    rcases hmem with hmem | hmem
    · have := List.countP_eq_zero.mp hz _ hmem
      simp [isCryptoHashReport] at this
    · have hc : ((alookup "cipher" ([] : OptionMap)).getD "aes256" ≠ "none")
          = True := by
        simp [alookup]
      simp [alookup] at hmem

theorem claim_C10_crypto_cipher_requires_hash_witness :
    (⟨.corosyncCryptoCipherRequiresCryptoHash, .error, none⟩ : ReportItem) ∈
      create_transport_knet [] [] [("hash", "none")] :=
  (claim_C10_crypto_cipher_requires_hash [] [] [("hash", "none")]).1
    (by constructor <;> decide)

theorem mem_validate_generic_names {go : OptionMap} {fo : Bool} {r : ReportItem}
    (h : r ∈ _validate_qdevice_generic_options_names go fo) :
    ∃ ns al pat, r.kind = .invalidOptions ns al "quorum device" pat := by
  unfold _validate_qdevice_generic_options_names at h
  dsimp only at h
  rw [List.mem_append] at h
  rcases h with h | h
  · split at h
    · simp only [List.mem_singleton] at h
      exact ⟨_, _, _, by rw [h]⟩
    · simp at h
  · split at h
    · simp at h
    · simp only [List.mem_singleton] at h
      exact ⟨_, _, _, by rw [h, downgrade_kind]⟩

theorem mem_exec_name_reports {oe : OptionMap} {r : ReportItem}
    (h : r ∈ (_validate_heuristics_exec_option_names oe).1) :
    ∃ ns, r = ⟨.invalidUserdefinedOptions ns exec_name_message "heuristics",
      .error, none⟩ := by
  unfold _validate_heuristics_exec_option_names at h
  dsimp only at h
  split at h
  · simp at h
  · simp only [List.mem_singleton] at h
    exact ⟨_, h⟩

theorem not_model_of_value_kind {r : ReportItem} {nm x : String}
    {d : List String} (hk : r.kind = .invalidOptionValue nm x d)
    (hnm : (nm == "model") = false) : isModelValueReport r = false := by
  simp [isModelValueReport, hk, hnm]

theorem countP_model_upd_generic_zero (go : OptionMap) (fo : Bool) :
    (_qdevice_update_generic_options go fo).countP isModelValueReport = 0 := by
  unfold _qdevice_update_generic_options
  rw [List.countP_append]
  have h1 : (run_collection_of_option_validators go
      (_get_qdevice_generic_options_validators true fo)).countP
      isModelValueReport = 0 := by
    apply List.countP_eq_zero.mpr
    intro r hr
    obtain ⟨v, hv, hrv⟩ := mem_run_collection hr
    simp only [_get_qdevice_generic_options_validators, if_true, List.map_cons,
      List.map_nil, List.mem_cons, List.not_mem_nil, or_false] at hv
    rcases hv with hv | hv <;> subst hv
    · obtain ⟨x, d, hx⟩ := mem_value_positive_integer (mem_value_empty_or_valid hrv)
      have hk : r.kind = RKind.invalidOptionValue "sync_timeout" x d := by
        rw [hx, downgrade_kind]
      simp [not_model_of_value_kind hk (by decide)]
    · obtain ⟨x, d, hx⟩ := mem_value_positive_integer (mem_value_empty_or_valid hrv)
      have hk : r.kind = RKind.invalidOptionValue "timeout" x d := by
        rw [hx, downgrade_kind]
      simp [not_model_of_value_kind hk (by decide)]
  have h2 : (_validate_qdevice_generic_options_names go fo).countP
      isModelValueReport = 0 := by
    apply List.countP_eq_zero.mpr
    intro r hr
    obtain ⟨ns, al, pat, hk⟩ := mem_validate_generic_names hr
    simp [isModelValueReport, hk]
  rw [h1, h2]

theorem countP_model_upd_heuristics_zero (ho : OptionMap) (fo : Bool) :
    (_qdevice_update_heuristics_options ho fo).countP isModelValueReport = 0 := by
  unfold _qdevice_update_heuristics_options
  dsimp only
  rw [List.countP_append, List.countP_append]
  have h1 : (run_collection_of_option_validators ho
      (_get_qdevice_heuristics_options_validators true fo)).countP
      isModelValueReport = 0 := by
    apply List.countP_eq_zero.mpr
    intro r hr
    obtain ⟨v, hv, hrv⟩ := mem_run_collection hr
    simp only [_get_qdevice_heuristics_options_validators, if_true, List.map_cons,
      List.map_nil, List.mem_cons, List.not_mem_nil, or_false] at hv
    rcases hv with hv | hv | hv | hv <;> subst hv
    · obtain ⟨x, hx⟩ := mem_value_in (mem_value_empty_or_valid hrv)
      have hk : r.kind = RKind.invalidOptionValue "mode" x ["off", "on", "sync"] := by
        rw [hx, downgrade_kind]
      simp [not_model_of_value_kind hk (by decide)]
    · obtain ⟨x, d, hx⟩ := mem_value_positive_integer (mem_value_empty_or_valid hrv)
      have hk : r.kind = RKind.invalidOptionValue "interval" x d := by
        rw [hx, downgrade_kind]
      simp [not_model_of_value_kind hk (by decide)]
    · obtain ⟨x, d, hx⟩ := mem_value_positive_integer (mem_value_empty_or_valid hrv)
      have hk : r.kind = RKind.invalidOptionValue "sync_timeout" x d := by
        rw [hx, downgrade_kind]
      simp [not_model_of_value_kind hk (by decide)]
    · obtain ⟨x, d, hx⟩ := mem_value_positive_integer (mem_value_empty_or_valid hrv)
      have hk : r.kind = RKind.invalidOptionValue "timeout" x d := by
        rw [hx, downgrade_kind]
      simp [not_model_of_value_kind hk (by decide)]
  have h2 : (_validate_heuristics_noexec_option_names
      (_split_heuristics_exec_options ho).1 fo).countP isModelValueReport = 0 := by
    apply List.countP_eq_zero.mpr
    intro r hr
    obtain ⟨inv, hx⟩ := mem_names_in hr
    have hk : r.kind = .invalidOptions inv ["interval", "mode", "sync_timeout",
        "timeout"] "heuristics" ["exec_NAME"] := by
      rw [hx, downgrade_kind]
    simp [isModelValueReport, hk]
  have h3 : ((_validate_heuristics_exec_option_names
      (_split_heuristics_exec_options ho).2).1).countP isModelValueReport = 0 := by
    apply List.countP_eq_zero.mpr
    intro r hr
    obtain ⟨ns, hx⟩ := mem_exec_name_reports hr
    simp [hx, isModelValueReport]
  rw [h1, h2, h3]

/-- C6: `add_quorum_device` with a model other than `net` reports the
model value as not in the allowed set, an ERROR forceable via
`force_model` and pre-downgraded to WARNING when `force_model` holds,
while `update_quorum_device` runs no model-specific validation for an
unrecognized model and emits no report about the model value. -/
theorem claim_C6_qdevice_model_validation (model : String)
    (model_options generic_options heuristics_options : OptionMap)
    (node_ids : List String) (force_model force_options : Bool)
    (h : model ≠ "net") :
    add_quorum_device model model_options generic_options heuristics_options
        node_ids force_model force_options =
      ⟨.invalidOptionValue "model" model ["net"],
        if force_model then .warning else .error,
        if force_model then none else some ForceCode.forceQdeviceModel⟩ ::
      (_qdevice_add_generic_options generic_options force_options ++
        _qdevice_add_heuristics_options heuristics_options force_options) ∧
    update_quorum_device model model_options generic_options heuristics_options
        node_ids force_options =
      _qdevice_update_generic_options generic_options force_options ++
        _qdevice_update_heuristics_options heuristics_options force_options ∧
    (update_quorum_device model model_options generic_options
        heuristics_options node_ids force_options).countP isModelValueReport
      = 0 := by
  have hne2 : (model == "net") = false := beq_eq_false_iff_ne.mpr h
  have hupd : update_quorum_device model model_options generic_options
      heuristics_options node_ids force_options =
      _qdevice_update_generic_options generic_options force_options ++
        _qdevice_update_heuristics_options heuristics_options force_options := by
    unfold update_quorum_device
    rw [if_neg h]
    simp
  refine ⟨?_, hupd, ?_⟩
  · unfold add_quorum_device
    rw [if_neg h]
    cases force_model <;>
      simp [run_collection_of_option_validators, value_in, alookup, downgrade,
        List.contains, List.elem, hne2]
  · rw [hupd, List.countP_append, countP_model_upd_generic_zero,
      countP_model_upd_heuristics_zero]

theorem claim_C6_qdevice_model_validation_witness :
    add_quorum_device "disk" [] [] [] [] false false =
      ⟨.invalidOptionValue "model" "disk" ["net"], .error,
        some ForceCode.forceQdeviceModel⟩ ::
      (_qdevice_add_generic_options [] false ++
        _qdevice_add_heuristics_options [] false) ∧
    update_quorum_device "disk" [] [] [] [] false =
      _qdevice_update_generic_options [] false ++
        _qdevice_update_heuristics_options [] false ∧
    (update_quorum_device "disk" [] [] [] [] false).countP isModelValueReport
      = 0 :=
  claim_C6_qdevice_model_validation "disk" [] [] [] [] false false
    (by decide)

theorem mem_keyList_split_exec {opts : OptionMap} {name : String}
    (h1 : name ∈ keyList opts)
    (h2 : "exec_".data.isPrefixOf name.data = true) :
    name ∈ keyList (_split_heuristics_exec_options opts).2 := by
  obtain ⟨p, hp, hpk⟩ := List.mem_map.mp h1
  apply List.mem_map.mpr
  refine ⟨p, ?_, hpk⟩
  unfold _split_heuristics_exec_options
  dsimp only
  apply List.mem_filter.mpr
  refine ⟨hp, ?_⟩
  rw [hpk]
  exact h2

/-- C7: any heuristics option name starting with `exec_` that fails the
character-blacklist regex is reported, in both the add and the update
validation, by an invalid-userdefined-options report with severity ERROR
and no force code, for every value of `force_options`. -/
theorem claim_C7_exec_option_name_errors (options : OptionMap)
    (force_options : Bool) (name : String)
    (h1 : name ∈ keyList options)
    (h2 : "exec_".data.isPrefixOf name.data = true)
    (h3 : exec_name_re_match name = false) :
    ∃ l, name ∈ l ∧
      (⟨.invalidUserdefinedOptions l exec_name_message "heuristics", .error,
        none⟩ : ReportItem) ∈
        _qdevice_add_heuristics_options options force_options ∧
      (⟨.invalidUserdefinedOptions l exec_name_message "heuristics", .error,
        none⟩ : ReportItem) ∈
        _qdevice_update_heuristics_options options force_options := by
  have hname_ex : name ∈ keyList (_split_heuristics_exec_options options).2 :=
    mem_keyList_split_exec h1 h2
  have hmem : name ∈ (keyList (_split_heuristics_exec_options options).2).filter
      (fun n => !(exec_name_re_match n)) :=
    List.mem_filter.mpr ⟨hname_ex, by rw [h3]; rfl⟩
  have hne : ((keyList (_split_heuristics_exec_options options).2).filter
      (fun n => !(exec_name_re_match n))).isEmpty = false := by
    cases hu : (keyList (_split_heuristics_exec_options options).2).filter
        (fun n => !(exec_name_re_match n)) with
    | nil =>
      rw [hu] at hmem
      simp at hmem
    | cons x xs => rfl
  have hreport : (⟨.invalidUserdefinedOptions
      ((keyList (_split_heuristics_exec_options options).2).filter
        (fun n => !(exec_name_re_match n))) exec_name_message "heuristics",
      .error, none⟩ : ReportItem) ∈
      (_validate_heuristics_exec_option_names
        (_split_heuristics_exec_options options).2).1 := by
    unfold _validate_heuristics_exec_option_names
    dsimp only
    rw [if_neg (by rw [hne]; simp)]
    simp
  refine ⟨_, hmem, ?_, ?_⟩
  · unfold _qdevice_add_heuristics_options
    dsimp only
    exact List.mem_append_right _ hreport
  · unfold _qdevice_update_heuristics_options
    dsimp only
    exact List.mem_append_right _ hreport

theorem claim_C7_exec_option_name_errors_witness :
    ∃ l, "exec_a b" ∈ l ∧
      (⟨.invalidUserdefinedOptions l exec_name_message "heuristics", .error,
        none⟩ : ReportItem) ∈
        _qdevice_add_heuristics_options [("exec_a b", "cmd")] true ∧
      (⟨.invalidUserdefinedOptions l exec_name_message "heuristics", .error,
        none⟩ : ReportItem) ∈
        _qdevice_update_heuristics_options [("exec_a b", "cmd")] true :=
  claim_C7_exec_option_name_errors [("exec_a b", "cmd")] true "exec_a b"
    (by decide) (by decide) (by decide)

theorem find_by_id_attr {cib : XElem} {id : String} {el : XElem}
    {anc : List XElem} (h : resource_find_by_id cib id = some (el, anc)) :
    attrId el = id := by
  unfold resource_find_by_id at h
  have hp := List.find?_some h
  simp only [beq_iff_eq] at hp
  unfold attrId
  rw [hp]
  rfl

/-- C2: `find_valid_resource_id` fails ResourceNotFound when the id is
absent; returns the id unchanged when it names a clone/master element or a
resource with no clone/master ancestor; with an enclosing clone/master it
substitutes the ancestor id when repair is allowed, keeps the id when
in-clone is allowed, and otherwise fails ResourceInMaster/ResourceInClone
naming both the resource id and the ancestor id. -/
theorem claim_C2_find_valid_resource_id (cib : XElem)
    (can_repair_to_clone in_clone_allowed : Bool) (id : String) :
    (resource_find_by_id cib id = none →
      find_valid_resource_id cib can_repair_to_clone in_clone_allowed id =
        .error (.resourceDoesNotExist id)) ∧
    (∀ el anc, resource_find_by_id cib id = some (el, anc) →
      (TAGS_CLONE.contains el.tag = true →
        find_valid_resource_id cib can_repair_to_clone in_clone_allowed id =
          .ok id) ∧
      (TAGS_CLONE.contains el.tag = false →
        (find_parent anc TAGS_CLONE = none →
          find_valid_resource_id cib can_repair_to_clone in_clone_allowed id =
            .ok id) ∧
        (∀ clone, find_parent anc TAGS_CLONE = some clone →
          (can_repair_to_clone = true →
            find_valid_resource_id cib can_repair_to_clone in_clone_allowed id =
              .ok (attrId clone)) ∧
          (can_repair_to_clone = false → in_clone_allowed = true →
            find_valid_resource_id cib can_repair_to_clone in_clone_allowed id =
              .ok id) ∧
          (can_repair_to_clone = false → in_clone_allowed = false →
            (clone.tag = "master" →
              find_valid_resource_id cib can_repair_to_clone in_clone_allowed
                id = .error (.resourceIsInMaster id (attrId clone))) ∧
            (clone.tag ≠ "master" →
              find_valid_resource_id cib can_repair_to_clone in_clone_allowed
                id = .error (.resourceIsInClone id (attrId clone))))))) := by
  constructor
  · intro h
    unfold find_valid_resource_id
    rw [h]
  · intro el anc h
    have hid : attrId el = id := find_by_id_attr h
    constructor
    · intro htag
      unfold find_valid_resource_id
      rw [h]
      dsimp only
      rw [if_pos htag, hid]
    · intro htag
      constructor
      · intro hpar
        unfold find_valid_resource_id
        rw [h]
        dsimp only
        rw [if_neg (by rw [htag]; simp), hpar, hid]
      · intro clone hpar
        refine ⟨?_, ?_, ?_⟩
        · intro hcr
          unfold find_valid_resource_id
          rw [h]
          dsimp only
          rw [if_neg (by rw [htag]; simp), hpar]
          dsimp only
          rw [if_pos hcr]
        · intro hcr hic
          unfold find_valid_resource_id
          rw [h]
          dsimp only
          rw [if_neg (by rw [htag]; simp), hpar]
          dsimp only
          rw [if_neg (by rw [hcr]; simp), if_pos hic, hid]
        · intro hcr hic
          constructor
          · intro hm
            unfold find_valid_resource_id
            rw [h]
            dsimp only
            rw [if_neg (by rw [htag]; simp), hpar]
            dsimp only
            rw [if_neg (by rw [hcr]; simp), if_neg (by rw [hic]; simp),
              if_pos hm, hid]
          · intro hm
            unfold find_valid_resource_id
            rw [h]
            dsimp only
            rw [if_neg (by rw [htag]; simp), hpar]
            dsimp only
            rw [if_neg (by rw [hcr]; simp), if_neg (by rw [hic]; simp),
              if_neg hm, hid]

/-- A primitive resource used by the concrete constraint examples. -/
def demoPrim : XElem := .mk "primitive" [("id", "R")] []

/-- A clone wrapping the primitive. -/
def demoClone : XElem := .mk "clone" [("id", "C-clone")] [demoPrim]

/-- The resources section of the demo tree. -/
def demoResources : XElem := .mk "resources" [] [demoClone]

/-- The demo configuration tree. -/
def demoCib : XElem := .mk "cib" [] [demoResources]

theorem claim_C2_find_valid_resource_id_witness :
    find_valid_resource_id demoCib false false "R" =
      .error (.resourceIsInClone "R" "C-clone") := by
  have h := (claim_C2_find_valid_resource_id demoCib false false "R").2
    demoPrim [demoClone, demoResources, demoCib] rfl
  have h2 := (h.2 rfl).2 demoClone rfl
  exact (h2.2.2 rfl rfl).2 (by decide)

theorem mem_enumFrom {s : Nat} {l : List α} {j : Nat} {a : α} :
    (j, a) ∈ enumFrom s l ↔ (s ≤ j ∧ l.get? (j - s) = some a) := by
  induction l generalizing s with
  | nil => simp [enumFrom]
  | cons x t ih =>
    simp only [enumFrom, List.mem_cons]
    constructor
    · rintro (h | h)
      · rw [Prod.mk.injEq] at h
        obtain ⟨h1, h2⟩ := h
        subst h1
        subst h2
        exact ⟨Nat.le_refl _, by simp [Nat.sub_self]⟩
      · obtain ⟨h1, h2⟩ := ih.mp h
        refine ⟨by omega, ?_⟩
        have hj : j - s = (j - (s + 1)) + 1 := by omega
        rw [hj]
        simpa using h2
    · rintro ⟨h1, h2⟩
      by_cases hjs : j = s
      · subst hjs
        left
        have : j - j = 0 := by omega
        rw [this] at h2
        simp only [List.get?_cons_zero, Option.some.injEq] at h2
        rw [h2]
      · right
        apply ih.mpr
        refine ⟨by omega, ?_⟩
        have hj : j - s = (j - (s + 1)) + 1 := by omega
        rw [hj] at h2
        simpa using h2

theorem mem_duplicit_element_list_iff (constraint_section element : XElem)
    (i : Nat) (d : XElem) :
    d ∈ duplicit_element_list have_duplicit_resource_sets constraint_section
        element i ↔
      ∃ j, (descendants constraint_section).get? j = some d ∧ j ≠ i ∧
        d.tag = element.tag ∧
        get_id_set_list d = get_id_set_list element := by
  unfold duplicit_element_list
  constructor
  · intro h
    obtain ⟨p, hp, hpd⟩ := List.mem_map.mp h
    obtain ⟨hpm, hcond⟩ := List.mem_filter.mp hp
    obtain ⟨j0, d0⟩ := p
    dsimp only at hpd
    subst hpd
    simp only [Bool.and_eq_true, beq_iff_eq, Bool.not_eq_eq_eq_not,
      Bool.not_true, beq_eq_false_iff_ne, have_duplicit_resource_sets] at hcond
    obtain ⟨⟨htag, hji⟩, hdup⟩ := hcond
    obtain ⟨hle, hget⟩ := mem_enumFrom.mp hpm
    have hj0 : j0 - 0 = j0 := by omega
    rw [hj0] at hget
    exact ⟨j0, hget, hji, htag, hdup.symm⟩
  · rintro ⟨j, hj, hji, htag, hsets⟩
    apply List.mem_map.mpr
    refine ⟨(j, d), List.mem_filter.mpr ⟨?_, ?_⟩, rfl⟩
    · apply mem_enumFrom.mpr
      refine ⟨Nat.zero_le j, ?_⟩
      have hj0 : j - 0 = j := by omega
      rw [hj0]
      exact hj
    · simp [Bool.and_eq_true, beq_iff_eq, have_duplicit_resource_sets,
        htag, hji, hsets]

/-- A resource-set element with the given ordered resource ids. -/
def rsetEl (ids : List String) : XElem :=
  .mk "resource_set" [] (ids.map (fun s => .mk "resource_ref" [("id", s)] []))

/-- A colocation constraint with one resource set. -/
def colocEl (cid : String) (ids : List String) : XElem :=
  .mk "colocation" [("id", cid)] [rsetEl ids]

/-- A constraint section with two colocations both over the set [A, B]. -/
def secDup : XElem :=
  .mk "constraints" [] [colocEl "c1" ["A", "B"], colocEl "c2" ["A", "B"]]

/-- A constraint section with colocations over [A, B], [B, A] and [A, C]. -/
def secNoDup : XElem :=
  .mk "constraints" []
    [colocEl "c1" ["A", "B"], colocEl "c3" ["B", "A"], colocEl "c4" ["A", "C"]]

/-- C3: `check_is_without_duplication` with `have_duplicit_resource_sets`
fails iff some other same-tag constraint among the section's descendants
has an equal ordered sequence of ordered resource-id sets; on failure the
report enumerates the exported form of every conflicting sibling.  In
particular a second [A, B] set is flagged against [A, B], while [B, A] and
[A, C] are not. -/
theorem claim_C3_duplicate_constraint_check (constraint_section element : XElem)
    (i : Nat)
    (_hel : (descendants constraint_section).get? i = some element) :
    (check_is_without_duplication have_duplicit_resource_sets export_with_set
        constraint_section element i = .ok () ↔
      ¬ ∃ j d, (descendants constraint_section).get? j = some d ∧ j ≠ i ∧
        d.tag = element.tag ∧
        get_id_set_list d = get_id_set_list element) ∧
    (check_is_without_duplication have_duplicit_resource_sets export_with_set
        constraint_section element i ≠ .ok () →
      check_is_without_duplication have_duplicit_resource_sets export_with_set
        constraint_section element i =
      .error (.duplicitConstraintsExist element.tag
        ((duplicit_element_list have_duplicit_resource_sets constraint_section
          element i).map export_with_set)) ∧
      ∀ d, d ∈ duplicit_element_list have_duplicit_resource_sets
          constraint_section element i ↔
        ∃ j, (descendants constraint_section).get? j = some d ∧ j ≠ i ∧
          d.tag = element.tag ∧
          get_id_set_list d = get_id_set_list element) ∧
    check_is_without_duplication have_duplicit_resource_sets export_with_set
        secDup (colocEl "c1" ["A", "B"]) 0 =
      .error (.duplicitConstraintsExist "colocation"
        [⟨[⟨["A", "B"], []⟩], [("id", "c2")]⟩]) ∧
    check_is_without_duplication have_duplicit_resource_sets export_with_set
        secNoDup (colocEl "c1" ["A", "B"]) 0 = .ok () := by
  refine ⟨?_, ?_, rfl, rfl⟩
  · unfold check_is_without_duplication
    dsimp only
    split
    · rename_i hemp
      have hnil : duplicit_element_list have_duplicit_resource_sets
          constraint_section element i = [] := by
        simpa [List.isEmpty_iff] using hemp
      constructor
      · intro _
        rintro ⟨j, d, hj, hji, htag, hsets⟩
        have hd := (mem_duplicit_element_list_iff constraint_section element
          i d).mpr ⟨j, hj, hji, htag, hsets⟩
        rw [hnil] at hd
        simp at hd
      · intro _
        rfl
    · rename_i hemp
      have hne : duplicit_element_list have_duplicit_resource_sets
          constraint_section element i ≠ [] := by
        simpa [List.isEmpty_iff] using hemp
      constructor
      · intro habs
        exact absurd habs (by simp)
      · intro hnex
        exfalso
        obtain ⟨d, hd⟩ := List.exists_mem_of_ne_nil _ hne
        obtain ⟨j, hj, hji, htag, hsets⟩ :=
          (mem_duplicit_element_list_iff constraint_section element i d).mp hd
        exact hnex ⟨j, d, hj, hji, htag, hsets⟩
  · intro hne
    unfold check_is_without_duplication at hne ⊢
    dsimp only at hne ⊢
    split at hne
    · exact absurd rfl hne
    · rename_i hemp
      rw [if_neg hemp]
      exact ⟨rfl, fun d => mem_duplicit_element_list_iff constraint_section
        element i d⟩

theorem claim_C3_duplicate_constraint_check_witness :
    check_is_without_duplication have_duplicit_resource_sets export_with_set
        secNoDup (colocEl "c1" ["A", "B"]) 0 = .ok () := by
  have h := (claim_C3_duplicate_constraint_check secNoDup
    (colocEl "c1" ["A", "B"]) 0 rfl).1
  apply h.mpr
  rintro ⟨j, d, hj, hji, htag, hsets⟩
  have hd := (mem_duplicit_element_list_iff secNoDup (colocEl "c1" ["A", "B"])
    0 d).mpr ⟨j, hj, hji, htag, hsets⟩
  have hnil : duplicit_element_list have_duplicit_resource_sets secNoDup
      (colocEl "c1" ["A", "B"]) 0 = [] := rfl
  rw [hnil] at hd
  simp at hd
